import Mathlib

/-!
# NTP client for Particle devices: embedding of `src/src/NTP.cpp` / `src/src/NTP.h`

The class `NTP` is embedded as a record of its private members together with
pure functions for its methods.  Machine integers are natural numbers reduced
modulo `2^32` (`uint32_t`), `2^16` (`uint16_t`) or `2^8` (`uint8_t`) wherever the
C++ code stores them.  The packet `_mPacket` is kept as its 48-byte memory
image (packed struct, little-endian host as on the ARM targets of the library),
so that `memset`, the bit-field writes, the raw `write`/`read` of the struct and
the `uint32_t*` swap loop act on the very same bytes as in the source.

The host environment (the clock `millis()`, the platform class `UDP`) is not
part of the repository; every value it hands to the code is an explicit input
(`Env`), and every call into the transport is recorded in the `UDP` record.
-/

namespace NTP

/-! ## Machine arithmetic -/

/-- Number of values of a `uint32_t`. -/
def U32 : Nat := 4294967296

/-- Wrap-around addition of two `uint32_t` values. -/
def add32 (a b : Nat) : Nat := (a % U32 + b % U32) % U32

/-- Wrap-around subtraction of two `uint32_t` values. -/
def sub32 (a b : Nat) : Nat := (a % U32 + U32 - b % U32) % U32

/-- Wrap-around multiplication of two `uint32_t` values. -/
def mul32 (a b : Nat) : Nat := (a % U32 * (b % U32)) % U32

/-- The macro `__SWAP32__(x)` of NTP.cpp line 33, on a 32 bit value. -/
def __SWAP32__ (x : Nat) : Nat :=
  ((((x &&& 0xFF000000) >>> 0x18) ||| ((x &&& 0x00FF0000) >>> 0x08)
    ||| ((x &&& 0x0000FF00) <<< 0x08) ||| ((x &&& 0x000000FF) <<< 0x18))) % U32

/-! ## Constants and enumerations of NTP.h -/

/-- Default NTP port. -/
def NTP_DEFAULT_PORT : Nat := 123

/-- Default update time in seconds. -/
def NTP_DEFAULT_TIME : Nat := 60

/-- Timeout time in seconds. -/
def NTP_DEFAULT_TIMEOUT : Nat := 10

/-- NTP protocol version. -/
def NTP_VERSION : Nat := 3

/-- NTP error codes (`NTP::Error`).  `INVALID_TIME` has the same value `0x01` as
`INVALID_PARAMETER` and is the same enumerator value. -/
inductive Error where
  | NO_ERROR
  | INVALID_PARAMETER
  | TRANSMISSION_ERROR
  | TIMEOUT
  | WAIT
  deriving DecidableEq, Repr

/-- The enumerator `INVALID_TIME = 0x01`, an alias of `INVALID_PARAMETER`. -/
def Error.INVALID_TIME : Error := Error.INVALID_PARAMETER

/-- Numeric value of an error code. -/
def Error.toNat : Error → Nat
  | .NO_ERROR => 0x00
  | .INVALID_PARAMETER => 0x01
  | .TRANSMISSION_ERROR => 0x02
  | .TIMEOUT => 0x03
  | .WAIT => 0x04

/-- NTP mode codes (`NTP::Mode`). -/
inductive Mode where
  | SYM_ACTIVE
  | SYM_PASSIVE
  | CLIENT
  | SERVER
  | BROAD
  | CONTROL
  deriving DecidableEq, Repr

/-- Numeric value of a mode code. -/
def Mode.toNat : Mode → Nat
  | .SYM_ACTIVE => 0x01
  | .SYM_PASSIVE => 0x02
  | .CLIENT => 0x03
  | .SERVER => 0x04
  | .BROAD => 0x05
  | .CONTROL => 0x06

/-- NTP leap indicator codes (`NTP::Leap`). -/
inductive Leap where
  | NO_WARNING
  | LONG_MINUTE
  | SHORT_MINUTE
  | ALERT
  deriving DecidableEq, Repr

/-- Numeric value of a leap indicator code. -/
def Leap.toNat : Leap → Nat
  | .NO_WARNING => 0x00
  | .LONG_MINUTE => 0x01
  | .SHORT_MINUTE => 0x02
  | .ALERT => 0x03

/-! ## The packet `NTP_Packet` as its 48-byte memory image -/

/-- The value of `sizeof(NTP::NTP_Packet)`: 4 single bytes and 11 words of 32 bit. -/
def sizeofPacket : Nat := 48

namespace NTP_Packet

/-- Byte `i` of the packet memory. -/
def byte (p : List Nat) (i : Nat) : Nat := p.getD i 0

/-- The `uint32_t` read `*(((uint32_t*)&packet) + i)` on a little-endian host. -/
def getU32 (p : List Nat) (i : Nat) : Nat :=
  byte p (4 * i) + 256 * byte p (4 * i + 1) + 65536 * byte p (4 * i + 2)
    + 16777216 * byte p (4 * i + 3)

/-- The `uint32_t` write `*(((uint32_t*)&packet) + i) = v` on a little-endian host. -/
def setU32 (p : List Nat) (i v : Nat) : List Nat :=
  (((p.set (4 * i) (v % 256)).set (4 * i + 1) (v / 256 % 256)).set (4 * i + 2)
    (v / 65536 % 256)).set (4 * i + 3) (v / 16777216 % 256)

/-- The result of `memset(&packet, 0x00, sizeof(NTP_Packet))`. -/
def zero : List Nat := List.replicate sizeofPacket 0

/-- Bit-field `Mode:3`, the low three bits of byte 0. -/
def Mode (p : List Nat) : Nat := byte p 0 &&& 0x07

/-- Bit-field `VN:3`, bits 3..5 of byte 0. -/
def VN (p : List Nat) : Nat := (byte p 0 >>> 3) &&& 0x07

/-- Bit-field `LI:2`, the top two bits of byte 0. -/
def LI (p : List Nat) : Nat := (byte p 0 >>> 6) &&& 0x03

/-- Assignment to the bit-field `Mode`. -/
def setMode (p : List Nat) (v : Nat) : List Nat :=
  p.set 0 ((byte p 0 &&& 0xF8) ||| (v &&& 0x07))

/-- Assignment to the bit-field `VN`. -/
def setVN (p : List Nat) (v : Nat) : List Nat :=
  p.set 0 ((byte p 0 &&& 0xC7) ||| ((v &&& 0x07) <<< 3))

/-- Member `Strat` (`uint8_t` at offset 1). -/
def Strat (p : List Nat) : Nat := byte p 1

/-- Member `Poll` (`int8_t` at offset 2), as the raw byte; converting the
`int8_t` to the `uint8_t` parameter of `_power` gives this raw byte back. -/
def Poll (p : List Nat) : Nat := byte p 2

/-- Member `Prec` (`int8_t` at offset 3), as the raw byte. -/
def Prec (p : List Nat) : Nat := byte p 3

/-- Member `TransmitTimestamp_S` (word 10, offset 40). -/
def TransmitTimestamp_S (p : List Nat) : Nat := getU32 p 10

/-- Member `TransmitTimestamp_F` (word 11, offset 44). -/
def TransmitTimestamp_F (p : List Nat) : Nat := getU32 p 11

/-- Assignment to the member `TransmitTimestamp_S`. -/
def setTransmitTimestamp_S (p : List Nat) (v : Nat) : List Nat := setU32 p 10 v

/-- The loop of NTP.cpp lines 119-122: for `i = 1 .. sizeof(NTP_Packet)/4 - 1`
word `i` is replaced by `__SWAP32__` of itself. -/
def swapEndianess (p : List Nat) : List Nat :=
  (List.range' 1 (sizeofPacket / 0x04 - 1)).foldl
    (fun q i => setU32 q i (__SWAP32__ (getU32 q i))) p

end NTP_Packet

/-! ## The transport `UDP` -/

/-- One call into the transport object `_mClient`. -/
inductive UdpOp where
  | begin (port : Nat)
  | beginPacket (server : String) (port : Nat)
  | write (bytes : List Nat)
  | endPacket
  | parsePacket
  | read (size : Nat)
  | stop
  deriving DecidableEq, Repr

/-- Modelled from the spec: the datagram transport (platform class `UDP`, member
`_mClient`) is not among the sources.  It is an open/closed flag, opened by
`begin` and closed by `stop`, plus the list of the calls made so far. -/
structure UDP where
  isOpen : Bool
  log : List UdpOp
  deriving DecidableEq, Repr

namespace UDP

/-- Record a call. -/
def call (c : UDP) (op : UdpOp) : UDP := { c with log := c.log ++ [op] }

/-- The call `begin(port)`: opens the transport. -/
def begin (c : UDP) (port : Nat) : UDP := { (c.call (.begin port)) with isOpen := true }

/-- The call `beginPacket(server, port)`. -/
def beginPacket (c : UDP) (server : String) (port : Nat) : UDP :=
  c.call (.beginPacket server port)

/-- The call `write(buffer, size)`. -/
def write (c : UDP) (bytes : List Nat) : UDP := c.call (.write bytes)

/-- The call `endPacket()`. -/
def endPacket (c : UDP) : UDP := c.call .endPacket

/-- The call `parsePacket()`. -/
def parsePacket (c : UDP) : UDP := c.call .parsePacket

/-- The call `read(buffer, size)`. -/
def read (c : UDP) (size : Nat) : UDP := c.call (.read size)

/-- The call `stop()`: closes the transport. -/
def stop (c : UDP) : UDP := { (c.call .stop) with isOpen := false }

/-- The buffer after `read(buffer, size)` delivered the datagram `dg`: the first
`min size dg.length` bytes are overwritten, the rest keeps its content. -/
def readInto (dg : List Nat) (size : Nat) (buf : List Nat) : List Nat :=
  (List.range buf.length).map
    (fun i => if i < size then (dg.getD i (buf.getD i 0)) % 256 else buf.getD i 0)

end UDP

/-! ## IEEE-754 binary64 arithmetic on non-negative values -/

/-- The integer nearest to `num / den`, ties to even. -/
def roundHalfEven (num den : Nat) : Nat :=
  let q := num / den
  let r := num % den
  if 2 * r < den then q
  else if den < 2 * r then q + 1
  else if q % 2 = 0 then q else q + 1

/-- The loop of `ilog2`: halve until the value is below two. -/
def ilog2.loop : Nat → Nat → Nat
  | 0, _ => 0
  | fuel + 1, n => if n < 2 then 0 else ilog2.loop fuel (n / 2) + 1

/-- The position of the leading binary digit of `n` (the floor of its binary
logarithm; `0` for `n = 0`). -/
def ilog2 (n : Nat) : Nat := ilog2.loop n n

/-- The binary64 value nearest (ties to even) to the non-negative rational
`num / den`, returned as a fraction `(m, d)` with `d` a power of two: the
significand has 53 bits.  Subnormal results and overflow do not occur for the
values formed by this program (zero, or between `2^-32` and `1000`). -/
def roundDouble (num den : Nat) : Nat × Nat :=
  if num = 0 then (0, 1)
  else
    let ln := ilog2 num
    let ld := ilog2 den
    if ln ≤ 52 + ld then
      let k0 := 52 + ld - ln
      let k := if num * 2 ^ k0 < 2 ^ 52 * den then k0 + 1 else k0
      (roundHalfEven (num * 2 ^ k) den, 2 ^ k)
    else
      let j0 := ln - ld - 52
      let j := if num < 2 ^ 52 * (den * 2 ^ j0) then j0 - 1 else j0
      (roundHalfEven num (den * 2 ^ j) * 2 ^ j, 1)

/-- The expression `(uint32_t)(((double)F) / 0xFFFFFFFF * 1000)` of NTP.cpp line
139: `F` and `0xFFFFFFFF` are exact as `double`, the quotient and then the
product are each rounded to binary64, the conversion to `uint32_t` truncates. -/
def rawMillis (F : Nat) : Nat :=
  let q := roundDouble (F % U32) 0xFFFFFFFF
  let t := roundDouble (q.1 * 1000) q.2
  (t.1 / t.2) % U32

/-! ## The class `NTP` -/

end NTP

/-- The private members of the class `NTP` (NTP.h lines 202-214). -/
structure NTP where
  _mServer : String
  _mClient : NTP.UDP
  _mPacket : List Nat
  _mPort : Nat
  _mTimeout : Nat
  _mSendTime : Nat
  _mRecTime : Nat
  _mUpdateTime : Nat
  _mLastUpdate : Nat
  deriving DecidableEq, Repr

namespace NTP

/-- The three destinations `Seconds`, `Millis`, `Leap` of `Update` and
`ForceUpdate`: `none` is the null pointer, `some v` a destination holding `v`.
The destinations are distinct objects outside the client. -/
structure Outs where
  Seconds : Option Nat
  Millis : Option Nat
  Leap : Option Leap
  deriving DecidableEq, Repr

/-- What the host hands to one run of `ForceUpdate`: the readings of `millis()`
(line 101, line 105 in wait iteration `k`, line 116, line 151), the value of
`parsePacket()` in wait iteration `k`, and the datagram delivered by `read`. -/
structure Env where
  tSend : Nat
  tLoop : Nat → Nat
  parse : Nat → Int
  datagram : List Nat
  tRec : Nat
  tEnd : Nat

/-- `NTP::_init` (NTP.cpp lines 64-71); the parameters are `uint16_t`. -/
def _init (self : NTP) (Server : String) (Port UpdateTime Timeout : Nat) : NTP :=
  { self with
    _mServer := Server
    _mPort := Port % 65536
    _mUpdateTime := UpdateTime % 65536
    _mTimeout := (Timeout % 65536 * 1000) % U32
    _mLastUpdate := 0x00 }

/-- The object before a constructor body runs: a default-constructed (closed,
unused) transport; the remaining members hold no meaningful value yet. -/
def raw : NTP :=
  { _mServer := "", _mClient := { isOpen := false, log := [] }, _mPacket := NTP_Packet.zero,
    _mPort := 0, _mTimeout := 0, _mSendTime := 0, _mRecTime := 0, _mUpdateTime := 0,
    _mLastUpdate := 0 }

/-- Constructor `NTP(Server)`. -/
def new1 (Server : String) : NTP :=
  _init raw Server NTP_DEFAULT_PORT NTP_DEFAULT_TIME NTP_DEFAULT_TIMEOUT

/-- Constructor `NTP(Server, Port)`. -/
def new2 (Server : String) (Port : Nat) : NTP :=
  _init raw Server Port NTP_DEFAULT_TIME NTP_DEFAULT_TIMEOUT

/-- Constructor `NTP(Server, Port, Update)`. -/
def new3 (Server : String) (Port Update : Nat) : NTP :=
  _init raw Server Port Update NTP_DEFAULT_TIMEOUT

/-- Constructor `NTP(Server, Port, Update, Timeout)`. -/
def new4 (Server : String) (Port Update Timeout : Nat) : NTP :=
  _init raw Server Port Update Timeout

/-- `NTP::SetUpdateTime` (NTP.cpp lines 59-62); the parameter is `uint16_t`. -/
def SetUpdateTime (self : NTP) (UpdateTime : Nat) : NTP :=
  { self with _mUpdateTime := UpdateTime % 65536 }

/-- The loop body of `NTP::_power`, run for the remaining `n` iterations. -/
def _power.loop (Base : Nat) : Nat → Nat → Nat
  | 0, Result => Result
  | n + 1, Result => _power.loop Base n (mul32 Result Base)

/-- `NTP::_power` (NTP.cpp lines 156-166): `Base` and `Exp` are `uint8_t`, the
counter `i` runs from `0` while `i < Exp`, `Result` is `uint32_t`. -/
def _power (Base Exp : Nat) : Nat := _power.loop (Base % 256) (Exp % 256) 0x01

/-- The do-while loop of NTP.cpp lines 103-111 from iteration `k` on.  `some
(false, c)` is the `return TIMEOUT` inside the loop, `some (true, c)` the exit
with a datagram pending; `none` means the loop is still running after `fuel`
iterations. -/
def ForceUpdate.wait (env : Env) (sendTime timeout : Nat) :
    Nat → Nat → UDP → Option (Bool × UDP)
  | 0, _, _ => none
  | fuel + 1, k, c =>
    if env.tLoop k % U32 > add32 sendTime timeout then some (false, c)
    else
      -- delay(10)
      let c1 := c.parsePacket
      if env.parse k = 0 then ForceUpdate.wait env sendTime timeout fuel (k + 1) c1
      else some (true, c1)

/-- The request packet of NTP.cpp lines 91-93: `memset` to zero, then `VN` and
`Mode`. -/
def ForceUpdate.request : List Nat :=
  NTP_Packet.setMode (NTP_Packet.setVN NTP_Packet.zero (NTP_VERSION &&& 0x07))
    Mode.CLIENT.toNat

/-- The transport after NTP.cpp lines 96-99: `begin`, `beginPacket`, `write` of
the packet memory, `endPacket`. -/
def ForceUpdate.send (self : NTP) : UDP :=
  (((self._mClient.begin self._mPort).beginPacket self._mServer self._mPort).write
    ForceUpdate.request).endPacket

/-- The packet memory after NTP.cpp lines 113-122: the datagram is read over the
request and the 32 bit fields are swapped. -/
def ForceUpdate.receive (env : Env) : List Nat :=
  NTP_Packet.swapEndianess (UDP.readInto env.datagram sizeofPacket ForceUpdate.request)

/-- NTP.cpp lines 113-153, the part of `ForceUpdate` after the wait loop has
ended with a datagram pending; `self` is the client at that point and the three
destinations of `out` are known to be non-null. -/
def ForceUpdate.complete (env : Env) (self : NTP) (out : Outs) : Error × NTP × Outs :=
  let c := (self._mClient.read sizeofPacket).stop
  let recTime := env.tRec % U32
  -- Swap the endianess of the 32 bit fields
  let pkt := ForceUpdate.receive env
  let self := { self with _mPacket := pkt, _mClient := c, _mRecTime := recTime }
  if NTP_Packet.Strat pkt = 0x00 then
    (Error.TRANSMISSION_ERROR, self, out)
  else
    let ServerPoll := _power 2 (NTP_Packet.Poll pkt)
    let updateTime := if self._mUpdateTime < ServerPoll then ServerPoll else self._mUpdateTime
    -- Ignore the time before the 01/01/1970
    let pkt := NTP_Packet.setTransmitTimestamp_S pkt
      (sub32 (NTP_Packet.TransmitTimestamp_S pkt) 2208988800)
    -- Get the milliseconds
    let millis := rawMillis (NTP_Packet.TransmitTimestamp_F pkt)
    -- Add the routing delay for the communication with the server
    let millis := add32 millis (sub32 self._mRecTime self._mSendTime)
    let carry := decide (millis ≥ 1000)
    let pkt := if carry then NTP_Packet.setTransmitTimestamp_S pkt
      (add32 (NTP_Packet.TransmitTimestamp_S pkt) 1) else pkt
    let millis := if carry then sub32 millis 1000 else millis
    (Error.NO_ERROR,
      { self with _mPacket := pkt, _mUpdateTime := updateTime, _mLastUpdate := env.tEnd % U32 },
      { out with Seconds := some (NTP_Packet.TransmitTimestamp_S pkt), Millis := some millis })

/-- `NTP::ForceUpdate` (NTP.cpp lines 83-154).  The result is the returned error
code, the client afterwards and the destinations afterwards; `none` means the
wait loop has not ended within `fuel` iterations. -/
def ForceUpdate (fuel : Nat) (env : Env) (self : NTP) (out : Outs) :
    Option (Error × NTP × Outs) :=
  if out.Seconds = none ∨ out.Millis = none ∨ out.Leap = none then
    some (Error.INVALID_PARAMETER, self, out)
  else
    -- Prepare the package, request a new package from the server
    let self := { self with _mPacket := ForceUpdate.request, _mClient := ForceUpdate.send self,
                            _mSendTime := env.tSend % U32 }
    match ForceUpdate.wait env self._mSendTime self._mTimeout fuel 0 self._mClient with
    | none => none
    | some (false, c) => some (Error.TIMEOUT, { self with _mClient := c }, out)
    | some (true, c) => some (ForceUpdate.complete env { self with _mClient := c } out)

/-- `NTP::Update` (NTP.cpp lines 73-81); `now` is the reading of `millis()` in
line 75. -/
def Update (fuel : Nat) (now : Nat) (env : Env) (self : NTP) (out : Outs) :
    Option (Error × NTP × Outs) :=
  if sub32 now self._mLastUpdate > mul32 self._mUpdateTime 1000 then
    ForceUpdate fuel env self out
  else
    some (Error.WAIT, self, out)

/-! ## Arrival of a reply -/

/-- A datagram is first reported pending in wait iteration `k`, and up to then no
clock reading exceeds `sendTime + timeout`. -/
def Env.arrivesAt (env : Env) (sendTime timeout k : Nat) : Prop :=
  (∀ j, j ≤ k → env.tLoop j % U32 ≤ add32 sendTime timeout) ∧
  (∀ j, j < k → env.parse j = 0) ∧ env.parse k ≠ 0

/-- The transport after `n` further calls of `parsePacket`. -/
def UDP.polled (c : UDP) : Nat → UDP
  | 0 => c
  | n + 1 => UDP.polled c.parsePacket n

/-! ## Concrete runs used in the examples below -/

namespace Example

/-- A 48-byte reply: first byte `b0`, stratum, poll, precision 0, the fields up
to the receive timestamp zero, and the transmit timestamp `secs`, `frac` in
network byte order. -/
def reply (b0 strat poll secs frac : Nat) : List Nat :=
  [b0, strat, poll, 0] ++ List.replicate 36 0 ++
    [secs / 16777216 % 256, secs / 65536 % 256, secs / 256 % 256, secs % 256,
     frac / 16777216 % 256, frac / 65536 % 256, frac / 256 % 256, frac % 256]

/-- A run in which the datagram `dg` is pending at the first check of the wait
loop; the clock reads `tSend` when the request is sent and in the loop, `tRec`
after the read and `tEnd` at the end. -/
def answered (dg : List Nat) (tSend tRec tEnd : Nat) : Env :=
  { tSend := tSend, tLoop := fun _ => tSend, parse := fun _ => 48, datagram := dg,
    tRec := tRec, tEnd := tEnd }

/-- A run in which no datagram ever arrives and the clock advances by five
seconds between two checks of the wait loop. -/
def silent (tSend : Nat) : Env :=
  { tSend := tSend, tLoop := fun k => tSend + 5000 * (k + 1), parse := fun _ => 0,
    datagram := [], tRec := 0, tEnd := 0 }

/-- Three non-null destinations, holding `0`, `0` and `NO_WARNING`. -/
def outs : Outs := { Seconds := some 0, Millis := some 0, Leap := some Leap.NO_WARNING }

/-- The client of the example sketch: `NTP Server("pool.ntp.org")`. -/
def client : NTP := new1 "pool.ntp.org"

/-- The result of a first `ForceUpdate` of the example client, answered with stratum
2 and poll 6. -/
def afterPoll6 : Error × NTP × Outs :=
  (ForceUpdate 1 (Example.answered (Example.reply 0x1C 2 6 3913056000 0) 5000 5040 5041)
    Example.client Example.outs).getD (Error.WAIT, Example.client, Example.outs)

end Example

/-- Word `i` of a datagram in network byte order (most significant byte first). -/
def wireU32 (dg : List Nat) (i : Nat) : Nat :=
  16777216 * (dg.getD (4 * i) 0 % 256) + 65536 * (dg.getD (4 * i + 1) 0 % 256)
    + 256 * (dg.getD (4 * i + 2) 0 % 256) + dg.getD (4 * i + 3) 0 % 256

/-- Successive calls of `Update` on the same client and destinations, as the
`loop()` of the example sketch makes them: call number `k` reads the clock
`calls[k].1` in line 75 and runs in the environment `calls[k].2`.  The result
lists the error codes in order, then the client and the destinations after the
last call. -/
def Updates (fuel : Nat) : List (Nat × Env) → NTP → Outs → Option (List Error × NTP × Outs)
  | [], self, out => some ([], self, out)
  | (now, env) :: rest, self, out =>
    match Update fuel now env self out with
    | none => none
    | some (e, self1, out1) =>
      match Updates fuel rest self1 out1 with
      | none => none
      | some (es, self2, out2) => some (e :: es, self2, out2)

/-- The `for` loop of `NTP::_power` (NTP.cpp lines 160-163) with its counter: `i`
is the `uint8_t` loop variable, `Result` the `uint32_t` accumulator and `n` the
number of iterations made so far.  The value is the final `Result` together
with the total number of iterations; `none` means the loop is still running
after `fuel` tests of its condition. -/
def _power.forLoop (Base Exp : Nat) : Nat → Nat → Nat → Nat → Option (Nat × Nat)
  | 0, _, _, _ => none
  | fuel + 1, i, Result, n =>
    if i < Exp then _power.forLoop Base Exp fuel ((i + 1) % 256) (mul32 Result Base) (n + 1)
    else some (Result, n)

/-! ## Auxiliary lemmas -/

theorem add32_lt (a b : Nat) : add32 a b < U32 := Nat.mod_lt _ (by decide)

theorem sub32_lt (a b : Nat) : sub32 a b < U32 := Nat.mod_lt _ (by decide)

theorem mul32_lt (a b : Nat) : mul32 a b < U32 := Nat.mod_lt _ (by decide)

theorem power_loop_mod (b : Nat) : ∀ (n r : Nat), _power.loop b n r % U32 = (r * b ^ n) % U32 := by
  intro n
  induction n with
  | zero => intro r; simp [_power.loop]
  | succ n ih =>
    intro r
    rw [_power.loop, ih, mul32, pow_succ]
    conv_rhs => rw [show r * (b ^ n * b) = (r * b) * b ^ n by ring]
    rw [Nat.mul_mod, Nat.mod_mod, ← Nat.mul_mod r b, ← Nat.mul_mod]

theorem power_loop_lt (b : Nat) : ∀ (n r : Nat), r < U32 → _power.loop b n r < U32 := by
  intro n
  induction n with
  | zero => intro r h; simpa [_power.loop] using h
  | succ n ih => intro r _; rw [_power.loop]; exact ih _ (mul32_lt _ _)

theorem power_eq (Base Exp : Nat) : _power Base Exp = ((Base % 256) ^ (Exp % 256)) % U32 := by
  have h := power_loop_mod (Base % 256) (Exp % 256) 1
  have hlt := power_loop_lt (Base % 256) (Exp % 256) 1 (by decide)
  rw [Nat.mod_eq_of_lt hlt, Nat.one_mul] at h
  exact h

theorem power_two_of_le {p : Nat} (hp : p ≤ 31) : _power 2 p = 2 ^ p := by
  rw [power_eq]
  have h256 : p % 256 = p := Nat.mod_eq_of_lt (by omega)
  rw [h256]
  apply Nat.mod_eq_of_lt
  calc 2 ^ p ≤ 2 ^ 31 := Nat.pow_le_pow_right (by decide) hp
    _ < U32 := by decide

theorem power_two_of_ge {p : Nat} (hp : 32 ≤ p) (hp2 : p < 256) : _power 2 p = 0 := by
  rw [power_eq]
  have h256 : p % 256 = p := Nat.mod_eq_of_lt hp2
  rw [h256]
  obtain ⟨k, rfl⟩ := Nat.exists_eq_add_of_le hp
  rw [pow_add]
  show (2 ^ 32 * 2 ^ k) % 4294967296 = 0
  norm_num

theorem wait_arrives (env : Env) (sendTime timeout : Nat) :
    ∀ (n i fuel : Nat) (c : UDP),
      (∀ j, i ≤ j → j ≤ i + n → env.tLoop j % U32 ≤ add32 sendTime timeout) →
      (∀ j, i ≤ j → j < i + n → env.parse j = 0) → env.parse (i + n) ≠ 0 → n < fuel →
      ForceUpdate.wait env sendTime timeout fuel i c = some (true, c.polled (n + 1)) := by
  intro n
  induction n with
  | zero =>
    intro i fuel c hclk _ hparse hfuel
    obtain ⟨f, rfl⟩ : ∃ f, fuel = f + 1 := ⟨fuel - 1, by omega⟩
    have h1 : ¬ env.tLoop i % U32 > add32 sendTime timeout :=
      Nat.not_lt.mpr (hclk i (Nat.le_refl _) (by omega))
    have h2 : env.parse i ≠ 0 := by simpa using hparse
    simp [ForceUpdate.wait, h1, h2, UDP.polled]
  | succ n ih =>
    intro i fuel c hclk hzero hparse hfuel
    obtain ⟨f, rfl⟩ : ∃ f, fuel = f + 1 := ⟨fuel - 1, by omega⟩
    have h1 : ¬ env.tLoop i % U32 > add32 sendTime timeout :=
      Nat.not_lt.mpr (hclk i (Nat.le_refl _) (by omega))
    have h2 : env.parse i = 0 := hzero i (Nat.le_refl _) (by omega)
    have hrec := ih (i + 1) f c.parsePacket
      (fun j hj hj2 => hclk j (by omega) (by omega))
      (fun j hj hj2 => hzero j (by omega) (by omega))
      (by rw [show i + 1 + n = i + (n + 1) by omega]; exact hparse) (by omega)
    simp only [ForceUpdate.wait, h1, h2, if_true, if_false]
    rw [hrec]
    rfl

theorem wait_of_arrivesAt {env : Env} {sendTime timeout k fuel : Nat} (c : UDP)
    (h : env.arrivesAt sendTime timeout k) (hfuel : k < fuel) :
    ForceUpdate.wait env sendTime timeout fuel 0 c = some (true, c.polled (k + 1)) := by
  obtain ⟨h1, h2, h3⟩ := h
  exact wait_arrives env sendTime timeout k 0 fuel c
    (fun j _ hj => h1 j (by omega)) (fun j _ hj => h2 j (by omega))
    (by simpa using h3) hfuel

theorem NTP_Packet.byte_set_of_ne (p : List Nat) {i j : Nat} (v : Nat) (h : i ≠ j) :
    NTP_Packet.byte (p.set i v) j = NTP_Packet.byte p j := by
  simp [NTP_Packet.byte, List.getD_eq_getElem?_getD, List.getElem?_set_ne h]

theorem NTP_Packet.byte_setU32_of_lt (p : List Nat) {i j : Nat} (v : Nat) (h : j < 4 * i) :
    NTP_Packet.byte (NTP_Packet.setU32 p i v) j = NTP_Packet.byte p j := by
  unfold NTP_Packet.setU32
  rw [NTP_Packet.byte_set_of_ne _ _ (by omega), NTP_Packet.byte_set_of_ne _ _ (by omega),
    NTP_Packet.byte_set_of_ne _ _ (by omega), NTP_Packet.byte_set_of_ne _ _ (by omega)]

theorem NTP_Packet.byte_foldl_swap_of_lt {j : Nat} (hj : j < 4) :
    ∀ (l : List Nat) (p : List Nat), (∀ i ∈ l, 1 ≤ i) →
      NTP_Packet.byte (l.foldl (fun q i => NTP_Packet.setU32 q i
        (__SWAP32__ (NTP_Packet.getU32 q i))) p) j = NTP_Packet.byte p j := by
  intro l
  induction l with
  | nil => intro p _; rfl
  | cons a l ih =>
    intro p h
    rw [List.foldl_cons, ih _ (fun i hi => h i (List.mem_cons_of_mem _ hi))]
    exact NTP_Packet.byte_setU32_of_lt _ _ (by have := h a (List.mem_cons_self _ _); omega)

theorem NTP_Packet.byte_swapEndianess_of_lt (p : List Nat) {j : Nat} (hj : j < 4) :
    NTP_Packet.byte (NTP_Packet.swapEndianess p) j = NTP_Packet.byte p j := by
  unfold NTP_Packet.swapEndianess
  apply NTP_Packet.byte_foldl_swap_of_lt hj
  intro i hi
  rw [List.mem_range'_1] at hi
  exact hi.1

theorem UDP.byte_readInto (dg buf : List Nat) (size : Nat) {i : Nat} (hi : i < buf.length)
    (hs : i < size) :
    NTP_Packet.byte (UDP.readInto dg size buf) i = dg.getD i (NTP_Packet.byte buf i) % 256 := by
  simp [NTP_Packet.byte, UDP.readInto, List.getD_eq_getElem?_getD, List.getElem?_map,
    List.getElem?_range hi, hs]

theorem ForceUpdate.request_eq : ForceUpdate.request = 0x1B :: List.replicate 47 0 := by decide

theorem ForceUpdate.byte_receive (env : Env) {i : Nat} (hi : i < 4) :
    NTP_Packet.byte (ForceUpdate.receive env) i
      = env.datagram.getD i (NTP_Packet.byte ForceUpdate.request i) % 256 := by
  unfold ForceUpdate.receive
  rw [NTP_Packet.byte_swapEndianess_of_lt _ hi]
  exact UDP.byte_readInto _ _ _ (by rw [ForceUpdate.request_eq]; simp; omega)
    (by simp [sizeofPacket]; omega)

theorem ForceUpdate.Strat_receive (env : Env) :
    NTP_Packet.Strat (ForceUpdate.receive env) = env.datagram.getD 1 0 % 256 :=
  ForceUpdate.byte_receive env (by decide)

theorem ForceUpdate.Poll_receive (env : Env) :
    NTP_Packet.Poll (ForceUpdate.receive env) = env.datagram.getD 2 0 % 256 :=
  ForceUpdate.byte_receive env (by decide)

theorem NTP_Packet.byte_set_same (p : List Nat) {i : Nat} (v : Nat) (h : i < p.length) :
    NTP_Packet.byte (p.set i v) i = v := by
  simp [NTP_Packet.byte, List.getD_eq_getElem?_getD, List.getElem?_set_self h]

theorem NTP_Packet.length_setU32 (p : List Nat) (i v : Nat) :
    (NTP_Packet.setU32 p i v).length = p.length := by
  simp [NTP_Packet.setU32]

theorem NTP_Packet.getU32_setU32_same (p : List Nat) {i : Nat} (v : Nat)
    (h : 4 * i + 3 < p.length) :
    NTP_Packet.getU32 (NTP_Packet.setU32 p i v) i = v % U32 := by
  have b0 : NTP_Packet.byte (NTP_Packet.setU32 p i v) (4 * i) = v % 256 := by
    unfold NTP_Packet.setU32
    rw [NTP_Packet.byte_set_of_ne _ _ (by omega), NTP_Packet.byte_set_of_ne _ _ (by omega),
      NTP_Packet.byte_set_of_ne _ _ (by omega), NTP_Packet.byte_set_same _ _ (by omega)]
  have b1 : NTP_Packet.byte (NTP_Packet.setU32 p i v) (4 * i + 1) = v / 256 % 256 := by
    unfold NTP_Packet.setU32
    rw [NTP_Packet.byte_set_of_ne _ _ (by omega), NTP_Packet.byte_set_of_ne _ _ (by omega),
      NTP_Packet.byte_set_same _ _ (by simp; omega)]
  have b2 : NTP_Packet.byte (NTP_Packet.setU32 p i v) (4 * i + 2) = v / 65536 % 256 := by
    unfold NTP_Packet.setU32
    rw [NTP_Packet.byte_set_of_ne _ _ (by omega),
      NTP_Packet.byte_set_same _ _ (by simp; omega)]
  have b3 : NTP_Packet.byte (NTP_Packet.setU32 p i v) (4 * i + 3) = v / 16777216 % 256 := by
    unfold NTP_Packet.setU32
    rw [NTP_Packet.byte_set_same _ _ (by simp; omega)]
  unfold NTP_Packet.getU32
  rw [b0, b1, b2, b3]
  unfold U32
  omega

theorem NTP_Packet.getU32_setU32_of_ne (p : List Nat) {i j : Nat} (v : Nat) (h : i ≠ j) :
    NTP_Packet.getU32 (NTP_Packet.setU32 p i v) j = NTP_Packet.getU32 p j := by
  have hb : ∀ t, t < 4 → NTP_Packet.byte (NTP_Packet.setU32 p i v) (4 * j + t)
      = NTP_Packet.byte p (4 * j + t) := by
    intro t ht
    unfold NTP_Packet.setU32
    rw [NTP_Packet.byte_set_of_ne _ _ (by omega), NTP_Packet.byte_set_of_ne _ _ (by omega),
      NTP_Packet.byte_set_of_ne _ _ (by omega), NTP_Packet.byte_set_of_ne _ _ (by omega)]
  have h0 := hb 0 (by decide)
  rw [Nat.add_zero] at h0
  unfold NTP_Packet.getU32
  rw [h0, hb 1 (by decide), hb 2 (by decide), hb 3 (by decide)]

theorem NTP_Packet.length_foldl_swap :
    ∀ (l : List Nat) (p : List Nat),
      (l.foldl (fun q i => NTP_Packet.setU32 q i
        (__SWAP32__ (NTP_Packet.getU32 q i))) p).length = p.length := by
  intro l
  induction l with
  | nil => intro p; rfl
  | cons a l ih => intro p; rw [List.foldl_cons, ih, NTP_Packet.length_setU32]

theorem NTP_Packet.length_swapEndianess (p : List Nat) :
    (NTP_Packet.swapEndianess p).length = p.length :=
  NTP_Packet.length_foldl_swap _ p

theorem ForceUpdate.length_receive (env : Env) : (ForceUpdate.receive env).length = 48 := by
  unfold ForceUpdate.receive
  rw [NTP_Packet.length_swapEndianess]
  simp [UDP.readInto, ForceUpdate.request_eq]

theorem sub32_of_le {a b : Nat} (hb : b ≤ a) (ha : a < U32) : sub32 a b = a - b := by
  unfold sub32
  unfold U32 at *
  omega

/-! ### The result of `ForceUpdate` path by path -/

theorem ForceUpdate_null (fuel : Nat) (env : Env) (self : NTP) (out : Outs)
    (h : out.Seconds = none ∨ out.Millis = none ∨ out.Leap = none) :
    ForceUpdate fuel env self out = some (Error.INVALID_PARAMETER, self, out) := by
  simp [ForceUpdate, h]

theorem ForceUpdate_cases {fuel : Nat} {env : Env} {self : NTP} {out : Outs}
    {r : Error × NTP × Outs} (h : ForceUpdate fuel env self out = some r) :
    ((out.Seconds = none ∨ out.Millis = none ∨ out.Leap = none) ∧
        r = (Error.INVALID_PARAMETER, self, out)) ∨
    (∃ c, r = (Error.TIMEOUT,
        { self with _mPacket := ForceUpdate.request, _mClient := c,
                    _mSendTime := env.tSend % U32 }, out)) ∨
    (∃ c, r = ForceUpdate.complete env
        { self with _mPacket := ForceUpdate.request, _mClient := c,
                    _mSendTime := env.tSend % U32 } out) := by
  unfold ForceUpdate at h
  split at h
  · next hnull => left; exact ⟨hnull, (Option.some.inj h).symm⟩
  · simp only at h
    split at h
    · exact absurd h (by simp)
    · next c _ => right; left; exact ⟨c, (Option.some.inj h).symm⟩
    · next c _ => right; right; exact ⟨c, (Option.some.inj h).symm⟩

theorem ForceUpdate_of_arrivesAt {fuel k : Nat} {env : Env} {self : NTP} {out : Outs}
    (hout : ¬ (out.Seconds = none ∨ out.Millis = none ∨ out.Leap = none))
    (h : env.arrivesAt (env.tSend % U32) self._mTimeout k) (hfuel : k < fuel) :
    ForceUpdate fuel env self out = some (ForceUpdate.complete env
      { self with _mPacket := ForceUpdate.request,
                  _mClient := (ForceUpdate.send self).polled (k + 1),
                  _mSendTime := env.tSend % U32 } out) := by
  unfold ForceUpdate
  rw [if_neg hout]
  simp only
  rw [wait_of_arrivesAt _ h hfuel]

theorem ForceUpdate.complete_error (env : Env) (self : NTP) (out : Outs) :
    (ForceUpdate.complete env self out).1 =
      if env.datagram.getD 1 0 % 256 = 0 then Error.TRANSMISSION_ERROR else Error.NO_ERROR := by
  unfold ForceUpdate.complete
  simp only [ForceUpdate.Strat_receive]
  split <;> rfl

theorem ForceUpdate.complete_of_stratum_zero (env : Env) (self : NTP) (out : Outs)
    (h : env.datagram.getD 1 0 % 256 = 0) :
    ForceUpdate.complete env self out = (Error.TRANSMISSION_ERROR,
      { self with _mPacket := ForceUpdate.receive env,
                  _mClient := (self._mClient.read sizeofPacket).stop,
                  _mRecTime := env.tRec % U32 }, out) := by
  unfold ForceUpdate.complete
  simp only [ForceUpdate.Strat_receive, h, if_true]

theorem ForceUpdate.complete_Leap (env : Env) (self : NTP) (out : Outs) :
    (ForceUpdate.complete env self out).2.2.Leap = out.Leap := by
  unfold ForceUpdate.complete
  simp only
  split <;> rfl

theorem ForceUpdate.complete_updateTime (env : Env) (self : NTP) (out : Outs) :
    (ForceUpdate.complete env self out).2.1._mUpdateTime =
      if env.datagram.getD 1 0 % 256 = 0 then self._mUpdateTime
      else max self._mUpdateTime (_power 2 (env.datagram.getD 2 0 % 256)) := by
  unfold ForceUpdate.complete
  simp only [ForceUpdate.Strat_receive, ForceUpdate.Poll_receive]
  split
  · rfl
  · simp only
    split
    · next h => exact (Nat.max_eq_right (Nat.le_of_lt h)).symm
    · next h => exact (Nat.max_eq_left (Nat.not_lt.mp h)).symm

theorem ForceUpdate.complete_outs (env : Env) (self : NTP) (out : Outs)
    (h : env.datagram.getD 1 0 % 256 ≠ 0) :
    (ForceUpdate.complete env self out).2.2 =
      (if 1000 ≤ add32 (rawMillis (NTP_Packet.TransmitTimestamp_F (ForceUpdate.receive env)))
            (sub32 (env.tRec % U32) self._mSendTime) then
        { out with
          Seconds := some (add32 (sub32 (NTP_Packet.TransmitTimestamp_S
            (ForceUpdate.receive env)) 2208988800) 1)
          Millis := some (add32 (rawMillis (NTP_Packet.TransmitTimestamp_F
            (ForceUpdate.receive env))) (sub32 (env.tRec % U32) self._mSendTime) - 1000) }
      else
        { out with
          Seconds := some (sub32 (NTP_Packet.TransmitTimestamp_S (ForceUpdate.receive env))
            2208988800)
          Millis := some (add32 (rawMillis (NTP_Packet.TransmitTimestamp_F
            (ForceUpdate.receive env))) (sub32 (env.tRec % U32) self._mSendTime)) }) := by
  have hlen : 4 * 10 + 3 < (ForceUpdate.receive env).length := by
    rw [ForceUpdate.length_receive]; omega
  have hlen2 : ∀ v, 4 * 10 + 3 < (NTP_Packet.setU32 (ForceUpdate.receive env) 10 v).length := by
    intro v; rw [NTP_Packet.length_setU32]; exact hlen
  unfold ForceUpdate.complete
  simp only [ForceUpdate.Strat_receive, h, if_false, NTP_Packet.setTransmitTimestamp_S,
    NTP_Packet.TransmitTimestamp_S, NTP_Packet.TransmitTimestamp_F,
    NTP_Packet.getU32_setU32_of_ne _ _ (show (10 : Nat) ≠ 11 by decide)]
  by_cases hc : 1000 ≤ add32 (rawMillis (NTP_Packet.getU32 (ForceUpdate.receive env) 11))
      (sub32 (env.tRec % U32) self._mSendTime)
  · have hd := decide_eq_true hc
    rw [if_pos hd, if_pos hd, if_pos hc, NTP_Packet.getU32_setU32_same _ _ (hlen2 _),
      NTP_Packet.getU32_setU32_same _ _ hlen, sub32_of_le hc (add32_lt _ _),
      Nat.mod_eq_of_lt (sub32_lt _ _), Nat.mod_eq_of_lt (add32_lt _ _)]
  · have hd : ¬ (decide (add32 (rawMillis (NTP_Packet.getU32 (ForceUpdate.receive env) 11))
        (sub32 (env.tRec % U32) self._mSendTime) ≥ 1000) = true) := by
      simpa using hc
    rw [if_neg hd, if_neg hd, if_neg hc, NTP_Packet.getU32_setU32_same _ _ hlen,
      Nat.mod_eq_of_lt (sub32_lt _ _)]

theorem ForceUpdate_NO_ERROR {fuel : Nat} {env : Env} {self s' : NTP} {out o' : Outs}
    (h : ForceUpdate fuel env self out = some (Error.NO_ERROR, s', o')) :
    env.datagram.getD 1 0 % 256 ≠ 0 ∧
    ∃ c, (Error.NO_ERROR, s', o') = ForceUpdate.complete env
      { self with _mPacket := ForceUpdate.request, _mClient := c,
                  _mSendTime := env.tSend % U32 } out := by
  rcases ForceUpdate_cases h with ⟨_, h1⟩ | ⟨c, h1⟩ | ⟨c, h1⟩
  · exact absurd (congrArg Prod.fst h1) (by simp)
  · exact absurd (congrArg Prod.fst h1) (by simp)
  · refine ⟨?_, c, h1⟩
    intro hz
    have h2 := congrArg Prod.fst h1
    rw [ForceUpdate.complete_error, if_pos hz] at h2
    exact absurd h2 (by simp)

theorem ForceUpdate_ne_WAIT {fuel : Nat} {env : Env} {self : NTP} {out : Outs}
    {r : Error × NTP × Outs} (h : ForceUpdate fuel env self out = some r) :
    r.1 ≠ Error.WAIT := by
  rcases ForceUpdate_cases h with ⟨_, h1⟩ | ⟨c, h1⟩ | ⟨c, h1⟩
  · rw [h1]; simp
  · rw [h1]; simp
  · rw [h1, ForceUpdate.complete_error]; split <;> simp

theorem ForceUpdate_updateTime_le {fuel : Nat} {env : Env} {self : NTP} {out : Outs}
    {r : Error × NTP × Outs} (h : ForceUpdate fuel env self out = some r) :
    self._mUpdateTime ≤ r.2.1._mUpdateTime := by
  rcases ForceUpdate_cases h with ⟨_, h1⟩ | ⟨c, h1⟩ | ⟨c, h1⟩
  · rw [h1]
  · rw [h1]
  · rw [h1, ForceUpdate.complete_updateTime]
    split
    · exact Nat.le_refl _
    · exact Nat.le_max_left _ _

theorem mul32_thousand {u : Nat} (h : u * 1000 < U32) : mul32 u 1000 = u * 1000 := by
  unfold mul32
  unfold U32 at *
  have h1 : u % 4294967296 = u := Nat.mod_eq_of_lt (by omega)
  rw [h1]
  omega

/-- No path of `ForceUpdate` assigns the destination `*Leap`. -/
theorem ForceUpdate_Leap_unchanged {fuel : Nat} {env : Env} {self : NTP} {out : Outs}
    {r : Error × NTP × Outs} (h : ForceUpdate fuel env self out = some r) :
    r.2.2.Leap = out.Leap := by
  rcases ForceUpdate_cases h with ⟨_, h1⟩ | ⟨c, h1⟩ | ⟨c, h1⟩
  · rw [h1]
  · rw [h1]
  · rw [h1, ForceUpdate.complete_Leap]

/-- The wait loop only calls `parsePacket`: it leaves the open flag as it is. -/
theorem wait_isOpen (env : Env) (sendTime timeout : Nat) :
    ∀ (fuel k : Nat) (c c' : UDP) (b : Bool),
      ForceUpdate.wait env sendTime timeout fuel k c = some (b, c') → c'.isOpen = c.isOpen := by
  intro fuel
  induction fuel with
  | zero => intro k c c' b h; simp [ForceUpdate.wait] at h
  | succ fuel ih =>
    intro k c c' b h
    rw [ForceUpdate.wait] at h
    split at h
    · cases h; rfl
    · simp only at h
      split at h
      · exact (ih (k + 1) c.parsePacket c' b h).trans rfl
      · cases h; rfl

/-- Every return of `TIMEOUT` leaves the transport open. -/
theorem ForceUpdate_TIMEOUT_isOpen {fuel : Nat} {env : Env} {self s' : NTP} {out o' : Outs}
    (h : ForceUpdate fuel env self out = some (Error.TIMEOUT, s', o')) :
    s'._mClient.isOpen = true := by
  unfold ForceUpdate at h
  split at h
  · exact absurd (congrArg Prod.fst (Option.some.inj h)) (by simp)
  · simp only at h
    split at h
    · exact absurd h (by simp)
    · next c hw =>
      have hs : s' = _ := (congrArg (fun r => r.2.1) (Option.some.inj h)).symm
      rw [hs]
      exact wait_isOpen _ _ _ _ _ _ _ _ hw
    · next c hw =>
      have he := congrArg Prod.fst (Option.some.inj h)
      rw [ForceUpdate.complete_error] at he
      split at he <;> simp at he

/-! ### The binary64 expression of line 139 -/

theorem roundHalfEven_bounds (num den : Nat) (hden : 0 < den) :
    2 * den * roundHalfEven num den ≤ 2 * num + den ∧
    2 * num ≤ 2 * den * roundHalfEven num den + den := by
  have hdm := Nat.div_add_mod num den
  have hr := Nat.mod_lt num hden
  unfold roundHalfEven
  simp only
  generalize num / den = q at hdm ⊢
  generalize num % den = r at hdm hr ⊢
  have e1 : 2 * den * (q + 1) = 2 * (den * q) + 2 * den := by ring
  have e2 : 2 * den * q = 2 * (den * q) := by ring
  split
  · rw [e2]; omega
  · split
    · rw [e1]; omega
    · split
      · rw [e2]; omega
      · rw [e1]; omega

theorem ilog2_loop_le : ∀ (fuel n L : Nat), n < 2 ^ (L + 1) → ilog2.loop fuel n ≤ L := by
  intro fuel
  induction fuel with
  | zero => intro n L _; simp [ilog2.loop]
  | succ fuel ih =>
    intro n L h
    rw [ilog2.loop]
    split
    · exact Nat.zero_le _
    · next h2 =>
      cases L with
      | zero => simp at h; omega
      | succ L =>
        have : n / 2 < 2 ^ (L + 1) := by
          rw [pow_succ] at h
          omega
        have := ih (n / 2) L this
        omega

theorem ilog2_loop_ge : ∀ (fuel n k : Nat), n ≤ fuel → 2 ^ k ≤ n → k ≤ ilog2.loop fuel n := by
  intro fuel
  induction fuel with
  | zero =>
    intro n k h0 h
    have := Nat.pos_pow_of_pos k (by decide : 0 < 2)
    omega
  | succ fuel ih =>
    intro n k hf h
    rw [ilog2.loop]
    cases k with
    | zero => exact Nat.zero_le _
    | succ k =>
      have h2 : 2 ≤ n := by
        have := Nat.pos_pow_of_pos k (by decide : 0 < 2)
        rw [pow_succ] at h
        omega
      rw [if_neg (by omega)]
      have : 2 ^ k ≤ n / 2 := by
        rw [pow_succ] at h
        omega
      have := ih (n / 2) k (by omega) this
      omega

theorem ilog2_le {n L : Nat} (h : n < 2 ^ (L + 1)) : ilog2 n ≤ L := ilog2_loop_le n n L h

theorem ilog2_ge {n k : Nat} (h : 2 ^ k ≤ n) : k ≤ ilog2 n := ilog2_loop_ge n n k (Nat.le_refl _) h

theorem millis_core_upper (F A B m1 m2 n : Nat) (hA : 2 ^ 52 ≤ A) (hB : 2 ^ 43 ≤ B)
    (h1a : 2 * 4294967295 * m1 ≤ 2 * (F * A) + 4294967295)
    (h2a : 2 * A * m2 ≤ 2 * (m1 * 1000 * B) + A)
    (hn2 : F * 1000 + 1 ≤ (n + 1) * 4294967295) : m2 < (n + 1) * B := by
  by_contra hcon
  have hcon := Nat.le_of_not_lt hcon
  have e1 := Nat.mul_le_mul_left (2 * A * 4294967295) hcon
  have e2 := Nat.mul_le_mul_left 4294967295 h2a
  have e3 := Nat.mul_le_mul_left (1000 * B) h1a
  have e4 := Nat.mul_le_mul_left (2 * A * B) hn2
  have e5 := Nat.mul_le_mul_right B hA
  have e6 := Nat.mul_le_mul_left A hB
  norm_num at hA hB e5 e6
  nlinarith

theorem millis_core_lower (F A B m1 m2 n : Nat) (hA : 2 ^ 52 ≤ A) (hB : 2 ^ 43 ≤ B)
    (h1b : 2 * (F * A) ≤ 2 * 4294967295 * m1 + 4294967295)
    (h2b : 2 * (m1 * 1000 * B) ≤ 2 * A * m2 + A)
    (hn1 : n * 4294967295 + 1 ≤ F * 1000) : n * B ≤ m2 := by
  by_contra hcon
  have hcon := Nat.lt_of_not_le hcon
  have e1 := Nat.mul_le_mul_left (2 * A * 4294967295) (Nat.succ_le_of_lt hcon)
  have e2 := Nat.mul_le_mul_left 4294967295 h2b
  have e3 := Nat.mul_le_mul_left (1000 * B) h1b
  have e4 := Nat.mul_le_mul_left (2 * A * B) hn1
  have e5 := Nat.mul_le_mul_right B hA
  have e6 := Nat.mul_le_mul_left A hB
  norm_num at hA hB e5 e6
  nlinarith

theorem roundDouble_of_le (num den : Nat) (h0 : num ≠ 0) (hl : ilog2 num ≤ 52 + ilog2 den) :
    ∃ k, 52 + ilog2 den - ilog2 num ≤ k ∧
      roundDouble num den = (roundHalfEven (num * 2 ^ k) den, 2 ^ k) := by
  unfold roundDouble
  simp only
  rw [if_neg h0, if_pos hl]
  split
  · exact ⟨_, Nat.le_succ _, rfl⟩
  · exact ⟨_, Nat.le_refl _, rfl⟩

theorem roundDouble_quotient (f : Nat) (h0 : 0 < f) (hf : f ≤ 4294967295) :
    ∃ A m1, roundDouble f 0xFFFFFFFF = (m1, A) ∧ (∃ k1, A = 2 ^ k1) ∧ 2 ^ 52 ≤ A ∧
      0 < m1 ∧ m1 ≤ A ∧
      2 * 4294967295 * m1 ≤ 2 * (f * A) + 4294967295 ∧
      2 * (f * A) ≤ 2 * 4294967295 * m1 + 4294967295 := by
  have hD : ilog2 0xFFFFFFFF = 31 := by decide
  have hlf : ilog2 f ≤ 31 := ilog2_le (Nat.lt_of_le_of_lt hf (by decide))
  obtain ⟨k1, hk1, hq⟩ := roundDouble_of_le f 0xFFFFFFFF (Nat.pos_iff_ne_zero.mp h0)
    (by rw [hD]; exact Nat.le_trans hlf (by decide))
  have hk1 : 52 ≤ k1 := by rw [hD] at hk1; omega
  have hA : 2 ^ 52 ≤ 2 ^ k1 := Nat.pow_le_pow_right (by decide) hk1
  obtain ⟨h1a, h1b⟩ := roundHalfEven_bounds (f * 2 ^ k1) 0xFFFFFFFF (by decide)
  refine ⟨2 ^ k1, roundHalfEven (f * 2 ^ k1) 0xFFFFFFFF, hq, ⟨k1, rfl⟩, hA, ?_, ?_, h1a, h1b⟩
  · have hP : 1 * 2 ^ k1 ≤ f * 2 ^ k1 := Nat.mul_le_mul_right (2 ^ k1) h0
    have hA2 : 4503599627370496 ≤ 2 ^ k1 := hA
    clear hq hk1 hA hlf hD h1a
    generalize roundHalfEven (f * 2 ^ k1) 0xFFFFFFFF = m1 at h1b ⊢
    generalize f * 2 ^ k1 = P at h1b hP
    generalize 2 ^ k1 = A at hP hA2
    omega
  · have hP : f * 2 ^ k1 ≤ 4294967295 * 2 ^ k1 := Nat.mul_le_mul_right (2 ^ k1) hf
    clear hq hk1 hA hlf hD h1b
    generalize roundHalfEven (f * 2 ^ k1) 0xFFFFFFFF = m1 at h1a ⊢
    generalize f * 2 ^ k1 = P at h1a hP
    generalize 2 ^ k1 = A at hP
    omega

theorem roundDouble_product (m1 k1 : Nat) (hpos : 0 < m1) (hle : m1 ≤ 2 ^ k1) :
    ∃ B m2, roundDouble (m1 * 1000) (2 ^ k1) = (m2, B) ∧ 2 ^ 43 ≤ B ∧
      2 * 2 ^ k1 * m2 ≤ 2 * (m1 * 1000 * B) + 2 ^ k1 ∧
      2 * (m1 * 1000 * B) ≤ 2 * 2 ^ k1 * m2 + 2 ^ k1 := by
  have hln : ilog2 (m1 * 1000) ≤ k1 + 9 := by
    apply ilog2_le
    have hp := Nat.pos_pow_of_pos k1 (by decide : 0 < 2)
    have h10 : (2 : Nat) ^ 10 = 1024 := by decide
    rw [show k1 + 9 + 1 = k1 + 10 by omega, pow_add, h10]
    generalize 2 ^ k1 = A at hle hp
    omega
  have hld : k1 ≤ ilog2 (2 ^ k1) := ilog2_ge (Nat.le_refl _)
  obtain ⟨k2, hk2, ht⟩ := roundDouble_of_le (m1 * 1000) (2 ^ k1) (by omega) (by omega)
  have hk2 : 43 ≤ k2 := by omega
  have hB : 2 ^ 43 ≤ 2 ^ k2 := Nat.pow_le_pow_right (by decide) hk2
  obtain ⟨h2a, h2b⟩ := roundHalfEven_bounds (m1 * 1000 * 2 ^ k2) (2 ^ k1)
    (Nat.pos_pow_of_pos k1 (by decide))
  exact ⟨2 ^ k2, _, ht, hB, h2a, h2b⟩

theorem rawMillis_of_pos (f : Nat) (h0 : 0 < f) (hf : f ≤ 4294967295)
    (hne : f * 1000 % 4294967295 ≠ 0) : rawMillis f = f * 1000 / 4294967295 := by
  have hfm : f % U32 = f := Nat.mod_eq_of_lt (Nat.lt_of_le_of_lt hf (by decide))
  obtain ⟨A, m1, hq, ⟨k1, rfl⟩, hA, hm1pos, hm1le, h1a, h1b⟩ := roundDouble_quotient f h0 hf
  obtain ⟨B, m2, ht, hB, h2a, h2b⟩ := roundDouble_product m1 k1 hm1pos hm1le
  have hn1 : f * 1000 / 4294967295 * 4294967295 + 1 ≤ f * 1000 := by
    have hdm := Nat.div_add_mod (f * 1000) 4294967295
    clear hq ht h1a h1b h2a h2b hA hB hfm
    omega
  have hn2 : f * 1000 + 1 ≤ (f * 1000 / 4294967295 + 1) * 4294967295 := by
    have hmod := Nat.mod_lt (f * 1000) (by decide : 0 < 4294967295)
    have hdm := Nat.div_add_mod (f * 1000) 4294967295
    clear hq ht h1a h1b h2a h2b hA hB hfm hn1
    omega
  have hlo := millis_core_lower f (2 ^ k1) B m1 m2 _ hA hB h1b h2b hn1
  have hhi := millis_core_upper f (2 ^ k1) B m1 m2 _ hA hB h1a h2a hn2
  have hdiv : m2 / B = f * 1000 / 4294967295 :=
    Nat.div_eq_of_lt_le (by rw [Nat.mul_comm] at hlo; rw [Nat.mul_comm]; exact hlo) hhi
  have hsmall : f * 1000 / 4294967295 < U32 :=
    Nat.lt_of_le_of_lt (Nat.div_le_of_le_mul (Nat.mul_le_mul_right 1000 hf)) (by decide)
  unfold rawMillis
  simp only
  rw [hfm, hq, ht, hdiv, Nat.mod_eq_of_lt hsmall]

theorem rawMillis_eq (F : Nat) : rawMillis F = F % U32 * 1000 / 4294967295 := by
  have hlt : F % U32 < U32 := Nat.mod_lt _ (by decide)
  have hmm : rawMillis F = rawMillis (F % U32) := by
    unfold rawMillis
    rw [Nat.mod_mod]
  rw [hmm]
  generalize F % U32 = f at hlt
  unfold U32 at hlt
  by_cases hne : f * 1000 % 4294967295 = 0
  · have hdvd : 858993459 ∣ f * 200 := by
      have h5 : (5 * 858993459) ∣ 5 * (f * 200) := by
        have : 5 * (f * 200) = f * 1000 := by ring
        rw [this]
        exact Nat.dvd_of_mod_eq_zero hne
      exact Nat.dvd_of_mul_dvd_mul_left (by decide) h5
    have hco : Nat.Coprime 858993459 200 := by norm_num
    obtain ⟨j, hj⟩ := (Nat.Coprime.dvd_mul_right hco).mp hdvd
    have hj5 : j ≤ 5 := by omega
    interval_cases j <;> subst hj <;> decide
  · by_cases h0 : f = 0
    · subst h0; exact absurd rfl hne
    · exact rawMillis_of_pos f (by omega) (by omega) hne

/-! ### The macro `__SWAP32__` on the four bytes of a word -/

theorem and_shiftLeft_mask (x n k : Nat) :
    x &&& ((2 ^ n - 1) <<< k) = ((x >>> k) % 2 ^ n) <<< k := by
  apply Nat.eq_of_testBit_eq
  intro i
  simp only [Nat.testBit_and, Nat.testBit_shiftLeft, Nat.testBit_two_pow_sub_one,
    Nat.testBit_mod_two_pow, Nat.testBit_shiftRight]
  by_cases h : k ≤ i
  · simp [h, Nat.add_sub_cancel' h]
    cases x.testBit i <;> simp
  · simp [h]

theorem and_mask8 (x k : Nat) : x &&& (255 <<< k) = (x / 2 ^ k % 256) * 2 ^ k := by
  have h := and_shiftLeft_mask x 8 k
  simp only [Nat.shiftRight_eq_div_pow, Nat.shiftLeft_eq] at h ⊢
  exact h

theorem SWAP32_bytes {b0 b1 b2 b3 : Nat} (h0 : b0 < 256) (h1 : b1 < 256) (h2 : b2 < 256)
    (h3 : b3 < 256) :
    __SWAP32__ (b0 + 256 * b1 + 65536 * b2 + 16777216 * b3)
      = b3 + 256 * b2 + 65536 * b1 + 16777216 * b0 := by
  generalize hx : b0 + 256 * b1 + 65536 * b2 + 16777216 * b3 = x
  have m3 : x &&& 0xFF000000 = (x / 2 ^ 24 % 256) * 2 ^ 24 := and_mask8 x 24
  have m2 : x &&& 0x00FF0000 = (x / 2 ^ 16 % 256) * 2 ^ 16 := and_mask8 x 16
  have m1 : x &&& 0x0000FF00 = (x / 2 ^ 8 % 256) * 2 ^ 8 := and_mask8 x 8
  have m0 : x &&& 0x000000FF = (x / 2 ^ 0 % 256) * 2 ^ 0 := and_mask8 x 0
  have e3 : x / 2 ^ 24 % 256 = b3 := by norm_num; omega
  have e2 : x / 2 ^ 16 % 256 = b2 := by norm_num; omega
  have e1 : x / 2 ^ 8 % 256 = b1 := by norm_num; omega
  have e0 : x / 2 ^ 0 % 256 = b0 := by norm_num; omega
  unfold __SWAP32__
  rw [m3, m2, m1, m0, e3, e2, e1, e0]
  simp only [Nat.shiftRight_eq_div_pow, Nat.shiftLeft_eq]
  have t3 : b3 * 2 ^ 24 / 2 ^ 0x18 = b3 := by norm_num
  have t2 : b2 * 2 ^ 16 / 2 ^ 0x08 = 2 ^ 8 * b2 := by norm_num; omega
  have t1 : b1 * 2 ^ 8 * 2 ^ 0x08 = 2 ^ 16 * b1 := by norm_num; omega
  have t0 : b0 * 2 ^ 0 * 2 ^ 0x18 = 2 ^ 24 * b0 := by norm_num; omega
  rw [t3, t2, t1, t0]
  rw [Nat.lor_comm b3, ← Nat.mul_add_lt_is_or (by omega : b3 < 2 ^ 8),
    Nat.lor_comm _ (2 ^ 16 * b1), ← Nat.mul_add_lt_is_or (by norm_num; omega),
    Nat.lor_comm _ (2 ^ 24 * b0), ← Nat.mul_add_lt_is_or (by norm_num; omega)]
  unfold U32
  norm_num
  omega

theorem SWAP32_involution {x : Nat} (hx : x < U32) : __SWAP32__ (__SWAP32__ x) = x := by
  unfold U32 at hx
  have hb0 : x % 256 < 256 := Nat.mod_lt _ (by decide)
  have hb1 : x / 256 % 256 < 256 := Nat.mod_lt _ (by decide)
  have hb2 : x / 65536 % 256 < 256 := Nat.mod_lt _ (by decide)
  have hb3 : x / 16777216 % 256 < 256 := Nat.mod_lt _ (by decide)
  have hdec : x = x % 256 + 256 * (x / 256 % 256) + 65536 * (x / 65536 % 256)
      + 16777216 * (x / 16777216 % 256) := by omega
  have hs := SWAP32_bytes hb0 hb1 hb2 hb3
  rw [← hdec] at hs
  rw [hs, SWAP32_bytes hb3 hb2 hb1 hb0]
  omega

/-! ### The swap loop byte by byte -/

theorem NTP_Packet.byte_setU32_of_word_ne (p : List Nat) {i j : Nat} (v : Nat) (h : j / 4 ≠ i) :
    NTP_Packet.byte (NTP_Packet.setU32 p i v) j = NTP_Packet.byte p j := by
  unfold NTP_Packet.setU32
  rw [NTP_Packet.byte_set_of_ne _ _ (by omega), NTP_Packet.byte_set_of_ne _ _ (by omega),
    NTP_Packet.byte_set_of_ne _ _ (by omega), NTP_Packet.byte_set_of_ne _ _ (by omega)]

theorem NTP_Packet.byte_setU32_word (p : List Nat) {i t : Nat} (v : Nat)
    (h : 4 * i + 3 < p.length) (ht : t < 4) :
    NTP_Packet.byte (NTP_Packet.setU32 p i v) (4 * i + t) = v / 256 ^ t % 256 := by
  unfold NTP_Packet.setU32
  interval_cases t
  · rw [NTP_Packet.byte_set_of_ne _ _ (by omega),
      NTP_Packet.byte_set_of_ne _ _ (by omega), NTP_Packet.byte_set_of_ne _ _ (by omega)]
    exact (NTP_Packet.byte_set_same _ _ (by omega)).trans (by simp)
  · rw [NTP_Packet.byte_set_of_ne _ _ (by omega), NTP_Packet.byte_set_of_ne _ _ (by omega),
      NTP_Packet.byte_set_same _ _ (by simp; omega)]
    simp
  · rw [NTP_Packet.byte_set_of_ne _ _ (by omega),
      NTP_Packet.byte_set_same _ _ (by simp; omega)]
    rfl
  · rw [NTP_Packet.byte_set_same _ _ (by simp; omega)]
    rfl

theorem NTP_Packet.byte_foldl_swap_of_not_mem (j : Nat) :
    ∀ (l : List Nat) (p : List Nat), j / 4 ∉ l →
      NTP_Packet.byte (l.foldl (fun q i => NTP_Packet.setU32 q i
        (__SWAP32__ (NTP_Packet.getU32 q i))) p) j = NTP_Packet.byte p j := by
  intro l
  induction l with
  | nil => intro p _; rfl
  | cons a l ih =>
    intro p h
    rw [List.foldl_cons, ih _ (fun hm => h (List.mem_cons_of_mem _ hm))]
    exact NTP_Packet.byte_setU32_of_word_ne _ _ (fun he => h (he ▸ List.mem_cons_self _ _))

theorem NTP_Packet.byte_foldl_swap_of_mem {i t : Nat} (ht : t < 4) :
    ∀ (l : List Nat) (p : List Nat), l.Nodup → i ∈ l → (∀ a ∈ l, 4 * a + 3 < p.length) →
      NTP_Packet.byte (l.foldl (fun q i => NTP_Packet.setU32 q i
        (__SWAP32__ (NTP_Packet.getU32 q i))) p) (4 * i + t)
        = __SWAP32__ (NTP_Packet.getU32 p i) / 256 ^ t % 256 := by
  intro l
  induction l with
  | nil => intro p _ hi; exact absurd hi (List.not_mem_nil _)
  | cons a l ih =>
    intro p hnd hi hlen
    rw [List.foldl_cons]
    have hnd2 := List.nodup_cons.mp hnd
    by_cases hia : i = a
    · subst hia
      rw [NTP_Packet.byte_foldl_swap_of_not_mem _ _ _
        (by rw [show (4 * i + t) / 4 = i by omega]; exact hnd2.1)]
      exact NTP_Packet.byte_setU32_word _ _ (hlen i (List.mem_cons_self _ _)) ht
    · have hil : i ∈ l := by
        rcases List.mem_cons.mp hi with h | h
        · exact absurd h hia
        · exact h
      rw [ih _ hnd2.2 hil (fun b hb => by
        rw [NTP_Packet.length_setU32]; exact hlen b (List.mem_cons_of_mem _ hb)),
        NTP_Packet.getU32_setU32_of_ne _ _ (fun h => hia h.symm)]

theorem NTP_Packet.byte_swapEndianess_word (p : List Nat) {i t : Nat} (hlen : p.length = 48)
    (h1 : 1 ≤ i) (h2 : i ≤ 11) (ht : t < 4) :
    NTP_Packet.byte (NTP_Packet.swapEndianess p) (4 * i + t)
      = __SWAP32__ (NTP_Packet.getU32 p i) / 256 ^ t % 256 := by
  unfold NTP_Packet.swapEndianess
  apply NTP_Packet.byte_foldl_swap_of_mem ht
  · exact List.nodup_range' _ _
  · rw [List.mem_range'_1]; simp [sizeofPacket]; omega
  · intro a ha
    rw [List.mem_range'_1] at ha
    simp [sizeofPacket] at ha
    omega

theorem SWAP32_lt (x : Nat) : __SWAP32__ x < U32 := Nat.mod_lt _ (by decide)

theorem NTP_Packet.getU32_swapEndianess (p : List Nat) {i : Nat} (hlen : p.length = 48)
    (h1 : 1 ≤ i) (h2 : i ≤ 11) :
    NTP_Packet.getU32 (NTP_Packet.swapEndianess p) i = __SWAP32__ (NTP_Packet.getU32 p i) := by
  have b0 := NTP_Packet.byte_swapEndianess_word p hlen h1 h2 (by decide : 0 < 4)
  have b1 := NTP_Packet.byte_swapEndianess_word p hlen h1 h2 (by decide : 1 < 4)
  have b2 := NTP_Packet.byte_swapEndianess_word p hlen h1 h2 (by decide : 2 < 4)
  have b3 := NTP_Packet.byte_swapEndianess_word p hlen h1 h2 (by decide : 3 < 4)
  have hlt := SWAP32_lt (NTP_Packet.getU32 p i)
  rw [Nat.add_zero] at b0
  unfold NTP_Packet.getU32 at b0 b1 b2 b3 hlt ⊢
  rw [b0, b1, b2, b3]
  generalize __SWAP32__ _ = v at hlt ⊢
  unfold U32 at hlt
  norm_num
  omega

theorem ForceUpdate.byte_request {j : Nat} (h : 1 ≤ j) :
    NTP_Packet.byte ForceUpdate.request j = 0 := by
  obtain ⟨k, rfl⟩ : ∃ k, j = k + 1 := ⟨j - 1, by omega⟩
  rw [ForceUpdate.request_eq]
  simp only [NTP_Packet.byte, List.getD_eq_getElem?_getD, List.getElem?_cons_succ,
    List.getElem?_replicate]
  split <;> rfl

theorem ForceUpdate.length_readInto (dg : List Nat) :
    (UDP.readInto dg sizeofPacket ForceUpdate.request).length = 48 := by
  simp [UDP.readInto, ForceUpdate.request_eq]

theorem ForceUpdate.byte_readInto_request (dg : List Nat) {j : Nat} (h1 : 1 ≤ j) (h2 : j < 48) :
    NTP_Packet.byte (UDP.readInto dg sizeofPacket ForceUpdate.request) j = dg.getD j 0 % 256 := by
  rw [UDP.byte_readInto _ _ _ (by rw [ForceUpdate.request_eq]; simp; omega)
    (by simp [sizeofPacket]; omega), ForceUpdate.byte_request h1]

theorem ForceUpdate.getU32_receive (env : Env) {i : Nat} (h1 : 1 ≤ i) (h2 : i ≤ 11) :
    NTP_Packet.getU32 (ForceUpdate.receive env) i = wireU32 env.datagram i := by
  unfold ForceUpdate.receive
  rw [NTP_Packet.getU32_swapEndianess _ (ForceUpdate.length_readInto _) h1 h2]
  unfold NTP_Packet.getU32
  rw [ForceUpdate.byte_readInto_request _ (by omega) (by omega),
    ForceUpdate.byte_readInto_request _ (by omega) (by omega),
    ForceUpdate.byte_readInto_request _ (by omega) (by omega),
    ForceUpdate.byte_readInto_request _ (by omega) (by omega),
    SWAP32_bytes (Nat.mod_lt _ (by decide)) (Nat.mod_lt _ (by decide))
      (Nat.mod_lt _ (by decide)) (Nat.mod_lt _ (by decide))]
  unfold wireU32
  omega

theorem ForceUpdate.TransmitTimestamp_S_receive (env : Env) :
    NTP_Packet.TransmitTimestamp_S (ForceUpdate.receive env) = wireU32 env.datagram 10 :=
  ForceUpdate.getU32_receive env (by decide) (by decide)

theorem ForceUpdate.TransmitTimestamp_F_receive (env : Env) :
    NTP_Packet.TransmitTimestamp_F (ForceUpdate.receive env) = wireU32 env.datagram 11 :=
  ForceUpdate.getU32_receive env (by decide) (by decide)

theorem wireU32_lt (dg : List Nat) (i : Nat) : wireU32 dg i < U32 := by
  unfold wireU32 U32
  omega

theorem ForceUpdate_NO_ERROR_outs {fuel : Nat} {env : Env} {self s' : NTP} {out o' : Outs}
    (h : ForceUpdate fuel env self out = some (Error.NO_ERROR, s', o')) :
    o' = (if 1000 ≤ add32 (rawMillis (wireU32 env.datagram 11))
            (sub32 (env.tRec % U32) (env.tSend % U32)) then
        { out with
          Seconds := some (add32 (sub32 (wireU32 env.datagram 10) 2208988800) 1)
          Millis := some (add32 (rawMillis (wireU32 env.datagram 11))
            (sub32 (env.tRec % U32) (env.tSend % U32)) - 1000) }
      else
        { out with
          Seconds := some (sub32 (wireU32 env.datagram 10) 2208988800)
          Millis := some (add32 (rawMillis (wireU32 env.datagram 11))
            (sub32 (env.tRec % U32) (env.tSend % U32))) }) := by
  obtain ⟨hs, c, hc⟩ := ForceUpdate_NO_ERROR h
  have h1 := congrArg (fun r => r.2.2) hc
  simp only at h1
  rw [ForceUpdate.complete_outs _ _ _ hs, ForceUpdate.TransmitTimestamp_S_receive,
    ForceUpdate.TransmitTimestamp_F_receive] at h1
  exact h1

theorem sub32_eq_of_lt {a b : Nat} (ha : a < U32) (hb : b < U32) :
    sub32 a b = (a + U32 - b) % U32 := by
  unfold sub32
  rw [Nat.mod_eq_of_lt ha, Nat.mod_eq_of_lt hb]

theorem NTP_Packet.byte_lt_of_forall {p : List Nat} (hb : ∀ b ∈ p, b < 256) (j : Nat) :
    NTP_Packet.byte p j < 256 := by
  unfold NTP_Packet.byte
  by_cases hj : j < p.length
  · rw [List.getD_eq_getElem _ _ hj]
    exact hb _ (List.getElem_mem _)
  · rw [List.getD_eq_default _ _ (Nat.le_of_not_lt hj)]
    decide

theorem NTP_Packet.getU32_lt_of_forall {p : List Nat} (hb : ∀ b ∈ p, b < 256) (i : Nat) :
    NTP_Packet.getU32 p i < U32 := by
  have h0 := NTP_Packet.byte_lt_of_forall hb (4 * i)
  have h1 := NTP_Packet.byte_lt_of_forall hb (4 * i + 1)
  have h2 := NTP_Packet.byte_lt_of_forall hb (4 * i + 2)
  have h3 := NTP_Packet.byte_lt_of_forall hb (4 * i + 3)
  unfold NTP_Packet.getU32 U32
  omega

theorem NTP_Packet.byte_of_getU32 {p : List Nat} (hb : ∀ b ∈ p, b < 256) (i : Nat) {t : Nat}
    (ht : t < 4) : NTP_Packet.getU32 p i / 256 ^ t % 256 = NTP_Packet.byte p (4 * i + t) := by
  have h0 := NTP_Packet.byte_lt_of_forall hb (4 * i)
  have h1 := NTP_Packet.byte_lt_of_forall hb (4 * i + 1)
  have h2 := NTP_Packet.byte_lt_of_forall hb (4 * i + 2)
  have h3 := NTP_Packet.byte_lt_of_forall hb (4 * i + 3)
  unfold NTP_Packet.getU32
  interval_cases t <;> norm_num <;> omega

theorem NTP_Packet.swapEndianess_swapEndianess {p : List Nat} (hlen : p.length = 48)
    (hb : ∀ b ∈ p, b < 256) :
    NTP_Packet.swapEndianess (NTP_Packet.swapEndianess p) = p := by
  have hl1 : (NTP_Packet.swapEndianess p).length = 48 := by
    rw [NTP_Packet.length_swapEndianess, hlen]
  have hl2 : (NTP_Packet.swapEndianess (NTP_Packet.swapEndianess p)).length = 48 := by
    rw [NTP_Packet.length_swapEndianess, hl1]
  apply List.ext_getElem (by rw [hl2, hlen])
  intro j hj1 hj2
  rw [← List.getD_eq_getElem _ 0 hj1, ← List.getD_eq_getElem _ 0 hj2]
  show NTP_Packet.byte _ j = NTP_Packet.byte _ j
  by_cases h4 : j < 4
  · rw [NTP_Packet.byte_swapEndianess_of_lt _ h4, NTP_Packet.byte_swapEndianess_of_lt _ h4]
  · have hj48 : j < 48 := by rw [hlen] at hj2; exact hj2
    obtain ⟨i, t, rfl, ht⟩ : ∃ i t, j = 4 * i + t ∧ t < 4 :=
      ⟨j / 4, j % 4, by omega, Nat.mod_lt _ (by decide)⟩
    rw [NTP_Packet.byte_swapEndianess_word _ hl1 (by omega) (by omega) ht,
      NTP_Packet.getU32_swapEndianess _ hlen (by omega) (by omega),
      SWAP32_involution (NTP_Packet.getU32_lt_of_forall hb i),
      NTP_Packet.byte_of_getU32 hb i ht]

theorem UDP.polled_log (c : UDP) : ∀ n, (c.polled n).log = c.log ++ List.replicate n UdpOp.parsePacket
      ∧ (c.polled n).isOpen = c.isOpen := by
  intro n
  induction n generalizing c with
  | zero => simp [UDP.polled]
  | succ n ih =>
    rw [UDP.polled]
    obtain ⟨h1, h2⟩ := ih c.parsePacket
    rw [h1, h2]
    constructor
    · simp [UDP.parsePacket, UDP.call, List.replicate_succ]
    · rfl

theorem wait_expires (env : Env) (sendTime timeout : Nat) :
    ∀ (n i fuel : Nat) (c : UDP),
      (∀ j, i ≤ j → j < i + n → env.tLoop j % U32 ≤ add32 sendTime timeout) →
      (∀ j, i ≤ j → j < i + n → env.parse j = 0) →
      add32 sendTime timeout < env.tLoop (i + n) % U32 → n < fuel →
      ForceUpdate.wait env sendTime timeout fuel i c = some (false, c.polled n) := by
  intro n
  induction n with
  | zero =>
    intro i fuel c _ _ hexp hfuel
    obtain ⟨f, rfl⟩ : ∃ f, fuel = f + 1 := ⟨fuel - 1, by omega⟩
    have h1 : env.tLoop i % U32 > add32 sendTime timeout := by simpa using hexp
    simp [ForceUpdate.wait, h1, UDP.polled]
  | succ n ih =>
    intro i fuel c hclk hzero hexp hfuel
    obtain ⟨f, rfl⟩ : ∃ f, fuel = f + 1 := ⟨fuel - 1, by omega⟩
    have h1 : ¬ env.tLoop i % U32 > add32 sendTime timeout :=
      Nat.not_lt.mpr (hclk i (Nat.le_refl _) (by omega))
    have h2 : env.parse i = 0 := hzero i (Nat.le_refl _) (by omega)
    have hrec := ih (i + 1) f c.parsePacket
      (fun j hj hj2 => hclk j (by omega) (by omega))
      (fun j hj hj2 => hzero j (by omega) (by omega))
      (by rw [show i + 1 + n = i + (n + 1) by omega]; exact hexp) (by omega)
    simp only [ForceUpdate.wait, h1, h2, if_true, if_false]
    rw [hrec]
    rfl

theorem ForceUpdate_of_expires {fuel k : Nat} {env : Env} {self : NTP} {out : Outs}
    (hout : ¬ (out.Seconds = none ∨ out.Millis = none ∨ out.Leap = none))
    (hclk : ∀ j, j < k → env.tLoop j % U32 ≤ add32 (env.tSend % U32) self._mTimeout)
    (hzero : ∀ j, j < k → env.parse j = 0)
    (hexp : add32 (env.tSend % U32) self._mTimeout < env.tLoop k % U32) (hfuel : k < fuel) :
    ForceUpdate fuel env self out = some (Error.TIMEOUT,
      { self with _mPacket := ForceUpdate.request,
                  _mClient := (ForceUpdate.send self).polled k,
                  _mSendTime := env.tSend % U32 }, out) := by
  unfold ForceUpdate
  rw [if_neg hout]
  simp only
  rw [wait_expires env _ _ k 0 fuel _ (fun j _ hj => hclk j (by omega))
    (fun j _ hj => hzero j (by omega)) (by simpa using hexp) hfuel]

theorem ForceUpdate.send_log (self : NTP) :
    (ForceUpdate.send self).log = self._mClient.log ++
      [UdpOp.begin self._mPort, UdpOp.beginPacket self._mServer self._mPort,
        UdpOp.write (0x1B :: List.replicate 47 0), UdpOp.endPacket] := by
  rw [← ForceUpdate.request_eq]
  simp [ForceUpdate.send, UDP.endPacket, UDP.write, UDP.beginPacket, UDP.begin, UDP.call]

theorem wait_polled (env : Env) (sendTime timeout : Nat) :
    ∀ (fuel k : Nat) (c c' : UDP) (b : Bool),
      ForceUpdate.wait env sendTime timeout fuel k c = some (b, c') → ∃ n, c' = c.polled n := by
  intro fuel
  induction fuel with
  | zero => intro k c c' b h; simp [ForceUpdate.wait] at h
  | succ fuel ih =>
    intro k c c' b h
    rw [ForceUpdate.wait] at h
    split at h
    · cases h; exact ⟨0, rfl⟩
    · simp only at h
      split at h
      · obtain ⟨n, hn⟩ := ih (k + 1) c.parsePacket c' b h
        exact ⟨n + 1, hn⟩
      · cases h; exact ⟨1, rfl⟩

theorem ForceUpdate_cases_polled {fuel : Nat} {env : Env} {self : NTP} {out : Outs}
    {r : Error × NTP × Outs}
    (hout : ¬ (out.Seconds = none ∨ out.Millis = none ∨ out.Leap = none))
    (h : ForceUpdate fuel env self out = some r) :
    ∃ n, r = (Error.TIMEOUT,
        { self with _mPacket := ForceUpdate.request,
                    _mClient := (ForceUpdate.send self).polled n,
                    _mSendTime := env.tSend % U32 }, out) ∨
      r = ForceUpdate.complete env
        { self with _mPacket := ForceUpdate.request,
                    _mClient := (ForceUpdate.send self).polled n,
                    _mSendTime := env.tSend % U32 } out := by
  unfold ForceUpdate at h
  rw [if_neg hout] at h
  simp only at h
  split at h
  · exact absurd h (by simp)
  · next c hw =>
    obtain ⟨n, hn⟩ := wait_polled _ _ _ _ _ _ _ _ hw
    exact ⟨n, Or.inl (by rw [← hn]; exact (Option.some.inj h).symm)⟩
  · next c hw =>
    obtain ⟨n, hn⟩ := wait_polled _ _ _ _ _ _ _ _ hw
    exact ⟨n, Or.inr (by rw [← hn]; exact (Option.some.inj h).symm)⟩

theorem ForceUpdate.complete_client (env : Env) (self : NTP) (out : Outs) :
    (ForceUpdate.complete env self out).2.1._mClient = (self._mClient.read sizeofPacket).stop := by
  unfold ForceUpdate.complete
  simp only
  split <;> rfl

theorem ForceUpdate.complete_lastUpdate (env : Env) (self : NTP) (out : Outs) :
    (ForceUpdate.complete env self out).2.1._mLastUpdate =
      if env.datagram.getD 1 0 % 256 = 0 then self._mLastUpdate else env.tEnd % U32 := by
  unfold ForceUpdate.complete
  simp only [ForceUpdate.Strat_receive]
  split <;> rfl

theorem add32_of_lt {a b : Nat} (h : a + b < U32) : add32 a b = a + b := by
  unfold add32
  unfold U32 at *
  omega

theorem Update_WAIT_of_le {fuel now : Nat} {env : Env} {self : NTP} {out : Outs}
    (hfit : self._mUpdateTime * 1000 < U32)
    (hle : sub32 now self._mLastUpdate ≤ self._mUpdateTime * 1000) :
    Update fuel now env self out = some (Error.WAIT, self, out) := by
  unfold Update
  rw [mul32_thousand hfit, if_neg (Nat.not_lt.mpr hle)]

theorem Updates_all_WAIT (fuel : Nat) (self : NTP) (out : Outs)
    (hfit : self._mUpdateTime * 1000 < U32) :
    ∀ calls : List (Nat × Env),
      (∀ c ∈ calls, sub32 c.1 self._mLastUpdate ≤ self._mUpdateTime * 1000) →
      Updates fuel calls self out = some (List.replicate calls.length Error.WAIT, self, out) := by
  intro calls
  induction calls with
  | nil => intro _; rfl
  | cons c rest ih =>
    intro hc
    obtain ⟨now, env⟩ := c
    have h1 : Update fuel now env self out = some (Error.WAIT, self, out) :=
      Update_WAIT_of_le hfit (hc (now, env) (List.mem_cons_self _ _))
    have h2 := ih (fun d hd => hc d (List.mem_cons_of_mem _ hd))
    simp only [Updates, h1, h2, List.length_cons, List.replicate_succ]

theorem ForceUpdate_NO_ERROR_lastUpdate {fuel : Nat} {env : Env} {self s' : NTP} {out o' : Outs}
    (h : ForceUpdate fuel env self out = some (Error.NO_ERROR, s', o')) :
    s'._mLastUpdate = env.tEnd % U32 := by
  obtain ⟨hs, c, hc⟩ := ForceUpdate_NO_ERROR h
  have h1 := congrArg (fun r => r.2.1._mLastUpdate) hc
  simp only at h1
  rw [ForceUpdate.complete_lastUpdate, if_neg hs] at h1
  exact h1

theorem wait_datagram (env : Env) (dg : List Nat) (sendTime timeout : Nat) :
    ∀ (fuel k : Nat) (c : UDP),
      ForceUpdate.wait { env with datagram := dg } sendTime timeout fuel k c
        = ForceUpdate.wait env sendTime timeout fuel k c := by
  intro fuel
  induction fuel with
  | zero => intro k c; rfl
  | succ fuel ih =>
    intro k c
    rw [ForceUpdate.wait, ForceUpdate.wait]
    simp only [ih]

theorem ForceUpdate.complete_summary (env : Env) (self : NTP) (out : Outs) :
    ((ForceUpdate.complete env self out).1, (ForceUpdate.complete env self out).2.2.Seconds,
      (ForceUpdate.complete env self out).2.2.Millis,
      (ForceUpdate.complete env self out).2.1._mUpdateTime,
      (ForceUpdate.complete env self out).2.1._mLastUpdate) =
    if env.datagram.getD 1 0 % 256 = 0 then
      (Error.TRANSMISSION_ERROR, out.Seconds, out.Millis, self._mUpdateTime, self._mLastUpdate)
    else if 1000 ≤ add32 (rawMillis (wireU32 env.datagram 11))
        (sub32 (env.tRec % U32) self._mSendTime) then
      (Error.NO_ERROR, some (add32 (sub32 (wireU32 env.datagram 10) 2208988800) 1),
        some (add32 (rawMillis (wireU32 env.datagram 11))
          (sub32 (env.tRec % U32) self._mSendTime) - 1000),
        max self._mUpdateTime (_power 2 (env.datagram.getD 2 0 % 256)), env.tEnd % U32)
    else
      (Error.NO_ERROR, some (sub32 (wireU32 env.datagram 10) 2208988800),
        some (add32 (rawMillis (wireU32 env.datagram 11))
          (sub32 (env.tRec % U32) self._mSendTime)),
        max self._mUpdateTime (_power 2 (env.datagram.getD 2 0 % 256)), env.tEnd % U32) := by
  by_cases hz : env.datagram.getD 1 0 % 256 = 0
  · rw [if_pos hz, ForceUpdate.complete_of_stratum_zero _ _ _ hz]
  · rw [if_neg hz, ForceUpdate.complete_error, ForceUpdate.complete_updateTime,
      ForceUpdate.complete_lastUpdate, ForceUpdate.complete_outs _ _ _ hz, if_neg hz, if_neg hz,
      if_neg hz, ForceUpdate.TransmitTimestamp_S_receive, ForceUpdate.TransmitTimestamp_F_receive]
    split <;> rfl

theorem power_forLoop_eq (Base Exp : Nat) (hE : Exp < 256) :
    ∀ (fuel i Result n : Nat), i ≤ Exp → Exp - i < fuel →
      _power.forLoop Base Exp fuel i Result n
        = some (_power.loop Base (Exp - i) Result, n + (Exp - i)) := by
  intro fuel
  induction fuel with
  | zero => intro i Result n _ hf; exact absurd hf (Nat.not_lt_zero _)
  | succ fuel ih =>
    intro i Result n hi hf
    rw [_power.forLoop]
    by_cases hlt : i < Exp
    · rw [if_pos hlt, Nat.mod_eq_of_lt (by omega : i + 1 < 256),
        ih (i + 1) (mul32 Result Base) (n + 1) (by omega) (by omega)]
      obtain ⟨d, hd⟩ : ∃ d, Exp - i = d + 1 := ⟨Exp - i - 1, by omega⟩
      rw [hd, show Exp - (i + 1) = d by omega, _power.loop, show n + 1 + d = n + (d + 1) by omega]
    · rw [if_neg hlt, show Exp - i = 0 by omega]
      rfl

/-! ## The claims -/

/-- C1 (fails on the code): a successful `ForceUpdate` whose round trip lasts two
seconds (reply fraction `0`, request sent at clock `5000`, reply read at `7000`)
writes `1000` to `*Millis`, outside `[0, 999]`: the carry of NTP.cpp lines
143-147 subtracts `1000` only once. -/
theorem C1_millis_reaches_1000 :
    ∃ s', ForceUpdate 1
        (Example.answered (Example.reply 0x1C 2 6 3913056000 0) 5000 7000 7001)
        Example.client Example.outs
      = some (Error.NO_ERROR, s',
          { Seconds := some 1704067201, Millis := some 1000, Leap := some Leap.NO_WARNING }) :=
  ⟨_, rfl⟩

/-- C2 (fails on the code): a successful `ForceUpdate` on a reply whose leap
indicator (top two bits of byte 0) is `1` (`LONG_MINUTE`) leaves the destination
`*Leap` at the value it held before, `NO_WARNING`: no statement of `ForceUpdate`
writes to `*Leap`. -/
theorem C2_leap_not_written :
    ∃ s' o', ForceUpdate 1
        (Example.answered (Example.reply 0x5C 2 6 3913056000 0) 5000 5040 5041)
        Example.client Example.outs = some (Error.NO_ERROR, s', o') ∧
      NTP_Packet.LI s'._mPacket = Leap.LONG_MINUTE.toNat ∧
      Example.outs.Leap = some Leap.NO_WARNING ∧ o'.Leap = some Leap.NO_WARNING :=
  ⟨_, _, rfl, by decide, rfl, rfl⟩

/-- C3 (the claim as stated fails): on the freshly constructed example client
(interval 60 s, `_mLastUpdate = 0`) the first `Update` at clock reading `1000`
returns `WAIT` and leaves the client untouched. -/
theorem C3_first_update_can_wait :
    Example.client._mLastUpdate = 0 ∧
    Update 1 1000 (Example.answered (Example.reply 0x1C 2 6 3913056000 0) 1000 1040 1041)
      Example.client Example.outs = some (Error.WAIT, Example.client, Example.outs) := by
  decide

/-- C3 (amended): for every configuration and every clock reading `now`, the first
`Update` on a client that `_init` has just set up returns `WAIT`, leaving client
and destinations untouched, when `now` is at most the update interval in
milliseconds, and is the call of `ForceUpdate` when `now` exceeds it. -/
theorem C3_first_update (fuel now : Nat) (env : Env) (self : NTP) (Server : String)
    (Port UpdateTime Timeout : Nat) (out : Outs) :
    Update fuel now env (_init self Server Port UpdateTime Timeout) out =
      if now % U32 ≤ UpdateTime % 65536 * 1000 then
        some (Error.WAIT, _init self Server Port UpdateTime Timeout, out)
      else ForceUpdate fuel env (_init self Server Port UpdateTime Timeout) out := by
  have h1 : sub32 now (_init self Server Port UpdateTime Timeout)._mLastUpdate = now % U32 := by
    show sub32 now 0 = now % U32
    unfold sub32 U32
    omega
  have h2 : mul32 (_init self Server Port UpdateTime Timeout)._mUpdateTime 1000
      = UpdateTime % 65536 * 1000 := by
    show mul32 (UpdateTime % 65536) 1000 = _
    apply mul32_thousand
    unfold U32
    omega
  unfold Update
  rw [h1, h2]
  by_cases h : now % U32 ≤ UpdateTime % 65536 * 1000
  · rw [if_neg (by omega), if_pos h]
  · rw [if_pos (by omega), if_neg h]

/-- C4 (fails on the code): when no datagram arrives, `ForceUpdate` returns `TIMEOUT`
from inside the wait loop (NTP.cpp line 107) without calling `stop`: the
transport, closed before the call, is open afterwards. -/
theorem C4_timeout_leaves_transport_open :
    ∃ s' o', ForceUpdate 3 (Example.silent 0) Example.client Example.outs
        = some (Error.TIMEOUT, s', o') ∧
      Example.client._mClient.isOpen = false ∧ s'._mClient.isOpen = true :=
  ⟨_, _, rfl, rfl, rfl⟩

/-- C5 (the claim as stated fails): (a) on the example client (interval 60 s,
`_mLastUpdate = 0`) `Update` at clock `60000`, where the elapsed time equals the
interval exactly, returns `WAIT` although `ForceUpdate` would succeed; (b) after a
successful update with poll byte `31` the interval is `2^31` s, the product
`_mUpdateTime * 1000` wraps to `0` in 32 bit, and `Update` 5 ms later does not
return `WAIT` although 5 ms is far below the interval. -/
theorem C5_wait_at_equality_no_wait_on_wrap :
    (sub32 60000 Example.client._mLastUpdate = Example.client._mUpdateTime * 1000 ∧
      Update 1 60000 (Example.answered (Example.reply 0x1C 2 6 3913056000 0) 60000 60040 60041)
        Example.client Example.outs = some (Error.WAIT, Example.client, Example.outs) ∧
      (ForceUpdate 1 (Example.answered (Example.reply 0x1C 2 6 3913056000 0) 60000 60040 60041)
        Example.client Example.outs).map Prod.fst = some Error.NO_ERROR) ∧
    (∃ s' o', ForceUpdate 1
        (Example.answered (Example.reply 0x1C 2 31 3913056000 0) 7000 7040 7041)
        Example.client Example.outs = some (Error.NO_ERROR, s', o') ∧
      s'._mUpdateTime = 2147483648 ∧ sub32 7046 s'._mLastUpdate = 5 ∧
      sub32 7046 s'._mLastUpdate < s'._mUpdateTime * 1000 ∧
      (Update 1 7046 (Example.answered (Example.reply 0x1C 2 6 3913056000 0) 7046 7086 7087)
        s' o').map Prod.fst = some Error.NO_ERROR) :=
  ⟨by decide, _, _, rfl, by decide, by decide, by decide, by decide⟩

/-- C5 (amended): for every client whose interval in milliseconds
`_mUpdateTime * 1000` fits 32 bit, and every clock reading `now`: `Update`
returns `WAIT` if and only if the elapsed time `now - _mLastUpdate` (32 bit) is
less than or equal to `_mUpdateTime * 1000`; it then leaves client, transport
and destinations untouched; when the elapsed time is strictly greater, `Update`
is the call of `ForceUpdate`. -/
theorem C5_update_wait_iff (fuel now : Nat) (env : Env) (self : NTP) (out : Outs)
    (h : self._mUpdateTime * 1000 < U32) :
    ((∃ s' o', Update fuel now env self out = some (Error.WAIT, s', o')) ↔
        sub32 now self._mLastUpdate ≤ self._mUpdateTime * 1000) ∧
    (sub32 now self._mLastUpdate ≤ self._mUpdateTime * 1000 →
        Update fuel now env self out = some (Error.WAIT, self, out)) ∧
    (self._mUpdateTime * 1000 < sub32 now self._mLastUpdate →
        Update fuel now env self out = ForceUpdate fuel env self out) := by
  have hw : sub32 now self._mLastUpdate ≤ self._mUpdateTime * 1000 →
      Update fuel now env self out = some (Error.WAIT, self, out) := by
    intro hle
    unfold Update
    rw [mul32_thousand h, if_neg (Nat.not_lt.mpr hle)]
  have hf : self._mUpdateTime * 1000 < sub32 now self._mLastUpdate →
      Update fuel now env self out = ForceUpdate fuel env self out := by
    intro hlt
    unfold Update
    rw [mul32_thousand h, if_pos hlt]
  refine ⟨⟨?_, fun hle => ⟨self, out, hw hle⟩⟩, hw, hf⟩
  rintro ⟨s', o', hu⟩
  by_contra hnot
  rw [hf (Nat.lt_of_not_le hnot)] at hu
  exact ForceUpdate_ne_WAIT hu rfl

/-- C5 (amended), at the example client and clock `60000`: the elapsed time equals
the interval and `Update` returns `WAIT`. -/
theorem C5_update_wait_iff_witness :
    Example.client._mUpdateTime * 1000 < U32 ∧
    Update 1 60000 (Example.answered (Example.reply 0x1C 2 6 3913056000 0) 60000 60040 60041)
      Example.client Example.outs = some (Error.WAIT, Example.client, Example.outs) :=
  ⟨by decide, (C5_update_wait_iff 1 60000 _ Example.client Example.outs (by decide)).2.1
    (by decide)⟩

/-- C6: when a reply arrives before the timeout (first reported pending in wait
iteration `k`) and all three destinations are non-null: if the stratum byte
(offset 1 of the reply) is `0`, `ForceUpdate` returns `TRANSMISSION_ERROR`, the
destinations hold what they held before and `_mUpdateTime` and `_mLastUpdate` are
unchanged; if the stratum byte is not `0`, `ForceUpdate` returns `NO_ERROR`, in
particular not `TRANSMISSION_ERROR`. -/
theorem C6_stratum_zero_transmission_error (fuel k : Nat) (env : Env) (self : NTP)
    (sec ms : Nat) (leap : Leap)
    (harr : env.arrivesAt (env.tSend % U32) self._mTimeout k) (hfuel : k < fuel) :
    (env.datagram.getD 1 0 % 256 = 0 →
      ∃ s', ForceUpdate fuel env self { Seconds := some sec, Millis := some ms, Leap := some leap }
          = some (Error.TRANSMISSION_ERROR, s',
              { Seconds := some sec, Millis := some ms, Leap := some leap }) ∧
        s'._mUpdateTime = self._mUpdateTime ∧ s'._mLastUpdate = self._mLastUpdate) ∧
    (env.datagram.getD 1 0 % 256 ≠ 0 →
      ∃ r, ForceUpdate fuel env self
          { Seconds := some sec, Millis := some ms, Leap := some leap } = some r ∧
        r.1 = Error.NO_ERROR ∧ r.1 ≠ Error.TRANSMISSION_ERROR) := by
  have hrun := @ForceUpdate_of_arrivesAt fuel k env self
    { Seconds := some sec, Millis := some ms, Leap := some leap } (by simp) harr hfuel
  constructor
  · intro hz
    rw [hrun, ForceUpdate.complete_of_stratum_zero _ _ _ hz]
    exact ⟨_, rfl, rfl, rfl⟩
  · intro hnz
    have herr := ForceUpdate.complete_error env
      { self with _mPacket := ForceUpdate.request,
                  _mClient := (ForceUpdate.send self).polled (k + 1),
                  _mSendTime := env.tSend % U32 }
      { Seconds := some sec, Millis := some ms, Leap := some leap }
    rw [if_neg hnz] at herr
    exact ⟨_, hrun, herr, by rw [herr]; decide⟩

/-- C6, at the example client and a reply with stratum byte `0` that is pending at
the first check: the result is `TRANSMISSION_ERROR`. -/
theorem C6_stratum_zero_transmission_error_witness :
    ∃ s', ForceUpdate 1 (Example.answered (Example.reply 0x1C 0 6 3913056000 0) 5000 5040 5041)
        Example.client { Seconds := some 11, Millis := some 22, Leap := some Leap.ALERT }
        = some (Error.TRANSMISSION_ERROR, s',
            { Seconds := some 11, Millis := some 22, Leap := some Leap.ALERT }) ∧
      s'._mUpdateTime = Example.client._mUpdateTime ∧
      s'._mLastUpdate = Example.client._mLastUpdate :=
  (C6_stratum_zero_transmission_error 1 0
    (Example.answered (Example.reply 0x1C 0 6 3913056000 0) 5000 5040 5041) Example.client
    11 22 Leap.ALERT
    ⟨fun j _ => (by decide : 5000 % U32 ≤ add32 (5000 % U32) 10000),
      fun j hj => absurd hj (Nat.not_lt_zero j), by decide⟩ (by decide)).1 (by decide)

/-- C7 (the claim as stated fails): a successful `ForceUpdate` on the example client
(interval 60) with poll byte `32` leaves the interval at `60`, not at
`max(60, 2^32)`: `_power(2, 32)` is `0` in 32 bit. -/
theorem C7_poll_32_keeps_interval :
    ∃ s' o', ForceUpdate 1
        (Example.answered (Example.reply 0x1C 2 32 3913056000 0) 5000 5040 5041)
        Example.client Example.outs = some (Error.NO_ERROR, s', o') ∧
      Example.client._mUpdateTime = 60 ∧ s'._mUpdateTime = 60 ∧
      s'._mUpdateTime ≠ max Example.client._mUpdateTime (2 ^ 32) :=
  ⟨_, _, rfl, rfl, rfl, by decide⟩

/-- C7 (amended): for every successful `ForceUpdate` whose reply carries a poll byte
`p` with `0 ≤ p ≤ 31`, and every prior interval, `_mUpdateTime` afterwards is the
maximum of its value before and `2^p`. -/
theorem C7_interval_max_poll (fuel : Nat) (env : Env) (self s' : NTP) (out o' : Outs)
    (p : Nat) (h : ForceUpdate fuel env self out = some (Error.NO_ERROR, s', o'))
    (hp : env.datagram.getD 2 0 % 256 = p) (hle : p ≤ 31) :
    s'._mUpdateTime = max self._mUpdateTime (2 ^ p) := by
  obtain ⟨hs, c, hc⟩ := ForceUpdate_NO_ERROR h
  have h1 := congrArg (fun r => r.2.1._mUpdateTime) hc
  simp only at h1
  rw [ForceUpdate.complete_updateTime, if_neg hs, hp, power_two_of_le hle] at h1
  exact h1

/-- C7 (amended), on the scenario of the specification: interval 60 and poll 6 give
64, and a following reply with poll 4 leaves 64. -/
theorem C7_interval_max_poll_witness :
    Example.client._mUpdateTime = 60 ∧
    ForceUpdate 1 (Example.answered (Example.reply 0x1C 2 6 3913056000 0) 5000 5040 5041)
      Example.client Example.outs
      = some (Error.NO_ERROR, Example.afterPoll6.2.1, Example.afterPoll6.2.2) ∧
    Example.afterPoll6.2.1._mUpdateTime = 64 ∧
    ∃ s2 o2,
      ForceUpdate 1 (Example.answered (Example.reply 0x1C 2 4 3913056100 0) 105000 105040 105041)
        Example.afterPoll6.2.1 Example.afterPoll6.2.2 = some (Error.NO_ERROR, s2, o2) ∧
      s2._mUpdateTime = 64 :=
  ⟨rfl, rfl,
    C7_interval_max_poll 1
      (Example.answered (Example.reply 0x1C 2 6 3913056000 0) 5000 5040 5041)
      Example.client Example.afterPoll6.2.1 Example.outs Example.afterPoll6.2.2 6 rfl
      (by decide) (by decide),
    _, _, rfl,
    C7_interval_max_poll 1
      (Example.answered (Example.reply 0x1C 2 4 3913056100 0) 105000 105040 105041)
      Example.afterPoll6.2.1 _ Example.afterPoll6.2.2 _ 4 rfl (by decide) (by decide)⟩

/-- C8 (the claim as stated fails): `SetUpdateTime(10)` on the example client lowers
the interval from 60 to 10. -/
theorem C8_SetUpdateTime_lowers :
    Example.client._mUpdateTime = 60 ∧ (SetUpdateTime Example.client 10)._mUpdateTime = 10 ∧
    ¬ Example.client._mUpdateTime ≤ (SetUpdateTime Example.client 10)._mUpdateTime := by
  decide

/-- C8 (amended): for every client and every input, `_mUpdateTime` after `ForceUpdate`
and after `Update` is at least its value before; `SetUpdateTime` stores its
(16 bit) argument, whatever the value before. -/
theorem C8_interval_monotone_under_updates (fuel now : Nat) (env : Env) (self : NTP)
    (out : Outs) :
    (∀ r, ForceUpdate fuel env self out = some r → self._mUpdateTime ≤ r.2.1._mUpdateTime) ∧
    (∀ r, Update fuel now env self out = some r → self._mUpdateTime ≤ r.2.1._mUpdateTime) ∧
    (∀ t, (SetUpdateTime self t)._mUpdateTime = t % 65536) := by
  refine ⟨fun r h => ForceUpdate_updateTime_le h, fun r h => ?_, fun t => rfl⟩
  unfold Update at h
  split at h
  · exact ForceUpdate_updateTime_le h
  · rw [← Option.some.inj h]

/-- C8 (amended), on a successful `ForceUpdate` of the example client with poll 6:
the interval goes from 60 to 64. -/
theorem C8_interval_monotone_under_updates_witness :
    ∃ r, ForceUpdate 1 (Example.answered (Example.reply 0x1C 2 6 3913056000 0) 5000 5040 5041)
        Example.client Example.outs = some r ∧
      Example.client._mUpdateTime ≤ r.2.1._mUpdateTime ∧ r.2.1._mUpdateTime = 64 :=
  ⟨_, rfl, (C8_interval_monotone_under_updates 1 0
      (Example.answered (Example.reply 0x1C 2 6 3913056000 0) 5000 5040 5041) Example.client
      Example.outs).1 _ rfl, rfl⟩

/-- C9 (fails on the code): the expression of NTP.cpp line 139 divides by
`0xFFFFFFFF`, not by `2^32`: for every fraction `f` it yields
`floor(f * 1000 / (2^32 - 1))`.  For the fraction `0xFFFFFFFF` that is `1000` where
`floor(f * 1000 / 2^32)` is `999`, and for `0x33333333` it is `200` where the
floor is `199`; the fractions `0x80000000` and `0` give `500` and `0`. -/
theorem C9_rawMillis_divides_by_max :
    (∀ f, rawMillis f = f % U32 * 1000 / 4294967295) ∧
    rawMillis 0xFFFFFFFF = 1000 ∧ 0xFFFFFFFF * 1000 / 2 ^ 32 = 999 ∧
    rawMillis 0x33333333 = 200 ∧ 0x33333333 * 1000 / 2 ^ 32 = 199 ∧
    rawMillis 0x80000000 = 500 ∧ rawMillis 0x00000000 = 0 :=
  ⟨rawMillis_eq, by decide, by decide, by decide, by decide, by decide, by decide⟩

/-- C10: for every successful `ForceUpdate`, with `m` the milliseconds computed from
the transmit fraction, `d = receiveTime - sendTime` and `e` the transmit seconds
minus `2208988800` (all in 32 bit unsigned arithmetic, as the code computes
them): if `m + d ≥ 1000` then `*Millis = m + d - 1000` and `*Seconds = e + 1`,
otherwise `*Millis = m + d` and `*Seconds = e`. -/
theorem C10_carry_rule (fuel : Nat) (env : Env) (self s' : NTP) (out o' : Outs)
    (h : ForceUpdate fuel env self out = some (Error.NO_ERROR, s', o')) :
    (1000 ≤ add32 (rawMillis (NTP_Packet.TransmitTimestamp_F (ForceUpdate.receive env)))
          (sub32 (env.tRec % U32) (env.tSend % U32)) →
      o'.Millis = some (add32 (rawMillis (NTP_Packet.TransmitTimestamp_F
          (ForceUpdate.receive env))) (sub32 (env.tRec % U32) (env.tSend % U32)) - 1000) ∧
      o'.Seconds = some (add32 (sub32 (NTP_Packet.TransmitTimestamp_S
          (ForceUpdate.receive env)) 2208988800) 1)) ∧
    (add32 (rawMillis (NTP_Packet.TransmitTimestamp_F (ForceUpdate.receive env)))
          (sub32 (env.tRec % U32) (env.tSend % U32)) < 1000 →
      o'.Millis = some (add32 (rawMillis (NTP_Packet.TransmitTimestamp_F
          (ForceUpdate.receive env))) (sub32 (env.tRec % U32) (env.tSend % U32))) ∧
      o'.Seconds = some (sub32 (NTP_Packet.TransmitTimestamp_S
          (ForceUpdate.receive env)) 2208988800)) := by
  obtain ⟨hs, c, hc⟩ := ForceUpdate_NO_ERROR h
  have h1 := congrArg (fun r => r.2.2) hc
  simp only at h1
  rw [ForceUpdate.complete_outs _ _ _ hs] at h1
  constructor
  · intro hge
    rw [if_pos hge] at h1
    rw [h1]
    exact ⟨rfl, rfl⟩
  · intro hlt
    rw [if_neg (Nat.not_le.mpr hlt)] at h1
    rw [h1]
    exact ⟨rfl, rfl⟩

/-- C10, on the scenario of the specification: the fraction `0xFFFFFFFE` gives 999 ms,
the round trip adds 5, and the result is the seconds plus one and 4 ms. -/
theorem C10_carry_rule_witness :
    ∃ s' o', ForceUpdate 1
        (Example.answered (Example.reply 0x1C 2 6 3913056000 0xFFFFFFFE) 5000 5005 5006)
        Example.client Example.outs = some (Error.NO_ERROR, s', o') ∧
      rawMillis 0xFFFFFFFE = 999 ∧ sub32 5005 5000 = 5 ∧
      sub32 3913056000 2208988800 = 1704067200 ∧
      o'.Millis = some 4 ∧ o'.Seconds = some 1704067201 :=
  ⟨_, _, rfl, by decide, by decide, by decide,
    (C10_carry_rule 1
      (Example.answered (Example.reply 0x1C 2 6 3913056000 0xFFFFFFFE) 5000 5005 5006)
      Example.client _ Example.outs _ rfl).1 (by decide)⟩

/-- C11: for every successful `ForceUpdate` without millisecond carry, with `s` the
32 bit value at reply offset 40..43 in network byte order, `*Seconds` is
`(s - 2208988800) mod 2^32`; for `s = 2208988800` it is `0`, and for every
`s ≥ 2208988800` it is exactly `s - 2208988800`. -/
theorem C11_epoch_conversion (fuel : Nat) (env : Env) (self s' : NTP) (out o' : Outs)
    (h : ForceUpdate fuel env self out = some (Error.NO_ERROR, s', o'))
    (hnc : add32 (rawMillis (wireU32 env.datagram 11))
      (sub32 (env.tRec % U32) (env.tSend % U32)) < 1000) :
    o'.Seconds = some ((wireU32 env.datagram 10 + U32 - 2208988800) % U32) ∧
    (wireU32 env.datagram 10 = 2208988800 → o'.Seconds = some 0) ∧
    (2208988800 ≤ wireU32 env.datagram 10 →
      o'.Seconds = some (wireU32 env.datagram 10 - 2208988800)) := by
  have ho := ForceUpdate_NO_ERROR_outs h
  rw [if_neg (Nat.not_le.mpr hnc)] at ho
  have hsec : o'.Seconds = some (sub32 (wireU32 env.datagram 10) 2208988800) := by rw [ho]
  have hlt := wireU32_lt env.datagram 10
  refine ⟨?_, ?_, ?_⟩
  · rw [hsec, sub32_eq_of_lt hlt (by decide)]
  · intro he
    rw [hsec, he]
    rfl
  · intro hge
    rw [hsec, sub32_of_le hge hlt]

/-- C11, on a reply whose transmit seconds are `2208988800` (1 January 1970) and one
whose transmit seconds are `3913056000`: the results are `0` and `1704067200`. -/
theorem C11_epoch_conversion_witness :
    (∃ s' o', ForceUpdate 1
        (Example.answered (Example.reply 0x1C 2 6 2208988800 0) 5000 5040 5041)
        Example.client Example.outs = some (Error.NO_ERROR, s', o') ∧
      wireU32 (Example.reply 0x1C 2 6 2208988800 0) 10 = 2208988800 ∧
      o'.Seconds = some 0) ∧
    (∃ s' o', ForceUpdate 1
        (Example.answered (Example.reply 0x1C 2 6 3913056000 0) 5000 5040 5041)
        Example.client Example.outs = some (Error.NO_ERROR, s', o') ∧
      wireU32 (Example.reply 0x1C 2 6 3913056000 0) 10 = 3913056000 ∧
      o'.Seconds = some 1704067200) :=
  ⟨⟨_, _, rfl, by decide,
      (C11_epoch_conversion 1
        (Example.answered (Example.reply 0x1C 2 6 2208988800 0) 5000 5040 5041)
        Example.client _ Example.outs _ rfl (by decide)).2.1 (by decide)⟩,
    ⟨_, _, rfl, by decide,
      (C11_epoch_conversion 1
        (Example.answered (Example.reply 0x1C 2 6 3913056000 0) 5000 5040 5041)
        Example.client _ Example.outs _ rfl (by decide)).2.2 (by decide)⟩⟩

set_option maxRecDepth 8192 in
/-- C12 (the claim as stated fails): a client whose interval was set to `0`, on a
successful reply with poll byte `0xFF` (`-1`), keeps the interval `0`: the server
interval `_power(2, 255)` is `0`, not `1`. -/
theorem C12_negative_poll_gives_zero :
    _power 2 0xFF = 0 ∧ (SetUpdateTime Example.client 0)._mUpdateTime = 0 ∧
    ∃ s' o', ForceUpdate 1
        (Example.answered (Example.reply 0x1C 2 0xFF 3913056000 0) 5000 5040 5041)
        (SetUpdateTime Example.client 0) Example.outs = some (Error.NO_ERROR, s', o') ∧
      s'._mUpdateTime = 0 ∧ s'._mUpdateTime ≠ max 0 1 :=
  ⟨power_two_of_ge (by decide) (by decide), rfl, _, _, rfl, rfl, by decide⟩

/-- C12 (amended): when a reply with non-zero stratum arrives before the timeout
(first reported pending in wait iteration `k`) and the destinations are
non-null, `ForceUpdate` returns `NO_ERROR` for every poll byte.  For poll byte
`0` the server interval `_power(2, poll)` is `1` and `_mUpdateTime` becomes
`max(old, 1)`; for every negative poll byte (raw value 128..255) the server
interval is `0` and `_mUpdateTime` keeps its value. -/
theorem C12_poll_zero_or_negative (fuel k : Nat) (env : Env) (self : NTP) (sec ms : Nat)
    (leap : Leap) (harr : env.arrivesAt (env.tSend % U32) self._mTimeout k) (hfuel : k < fuel)
    (hstrat : env.datagram.getD 1 0 % 256 ≠ 0) :
    ∃ s' o', ForceUpdate fuel env self
        { Seconds := some sec, Millis := some ms, Leap := some leap }
        = some (Error.NO_ERROR, s', o') ∧
      (env.datagram.getD 2 0 % 256 = 0 →
        _power 2 (env.datagram.getD 2 0 % 256) = 1 ∧
        s'._mUpdateTime = max self._mUpdateTime 1) ∧
      (128 ≤ env.datagram.getD 2 0 % 256 →
        _power 2 (env.datagram.getD 2 0 % 256) = 0 ∧
        s'._mUpdateTime = self._mUpdateTime) := by
  have key : ∀ st : NTP, st._mUpdateTime = self._mUpdateTime →
      ForceUpdate fuel env self { Seconds := some sec, Millis := some ms, Leap := some leap }
        = some (ForceUpdate.complete env st
            { Seconds := some sec, Millis := some ms, Leap := some leap }) →
      ∃ s' o', ForceUpdate fuel env self
          { Seconds := some sec, Millis := some ms, Leap := some leap }
          = some (Error.NO_ERROR, s', o') ∧
        (env.datagram.getD 2 0 % 256 = 0 →
          _power 2 (env.datagram.getD 2 0 % 256) = 1 ∧
          s'._mUpdateTime = max self._mUpdateTime 1) ∧
        (128 ≤ env.datagram.getD 2 0 % 256 →
          _power 2 (env.datagram.getD 2 0 % 256) = 0 ∧
          s'._mUpdateTime = self._mUpdateTime) := by
    intro st hsu hrun
    have herr := ForceUpdate.complete_error env st
      { Seconds := some sec, Millis := some ms, Leap := some leap }
    rw [if_neg hstrat] at herr
    have hupd := ForceUpdate.complete_updateTime env st
      { Seconds := some sec, Millis := some ms, Leap := some leap }
    rw [if_neg hstrat] at hupd
    refine ⟨(ForceUpdate.complete env st
        { Seconds := some sec, Millis := some ms, Leap := some leap }).2.1,
      (ForceUpdate.complete env st
        { Seconds := some sec, Millis := some ms, Leap := some leap }).2.2, ?_, ?_, ?_⟩
    · rw [hrun, ← herr]
    · intro hp
      rw [hupd, hp, hsu]
      exact ⟨by decide, by rw [show _power 2 0 = 1 by decide]⟩
    · intro hp
      have hlt : env.datagram.getD 2 0 % 256 < 256 := Nat.mod_lt _ (by decide)
      have hz := power_two_of_ge (Nat.le_trans (by decide) hp) hlt
      rw [hupd, hz, hsu]
      exact ⟨rfl, Nat.max_eq_left (Nat.zero_le _)⟩
  exact key
    { self with _mPacket := ForceUpdate.request
                _mClient := (ForceUpdate.send self).polled (k + 1)
                _mSendTime := env.tSend % U32 } rfl
    (@ForceUpdate_of_arrivesAt fuel k env self
      { Seconds := some sec, Millis := some ms, Leap := some leap } (by simp) harr hfuel)

set_option maxRecDepth 8192 in
/-- C12 (amended), on the example client and a reply with poll byte `0xFF`: the
interval stays `60`. -/
theorem C12_poll_zero_or_negative_witness :
    ∃ s' o', ForceUpdate 1
        (Example.answered (Example.reply 0x1C 2 0xFF 3913056000 0) 5000 5040 5041)
        Example.client { Seconds := some 0, Millis := some 0, Leap := some Leap.NO_WARNING }
        = some (Error.NO_ERROR, s', o') ∧ s'._mUpdateTime = Example.client._mUpdateTime := by
  obtain ⟨s', o', h, _, h2⟩ := C12_poll_zero_or_negative 1 0
    (Example.answered (Example.reply 0x1C 2 0xFF 3913056000 0) 5000 5040 5041) Example.client
    0 0 Leap.NO_WARNING
    ⟨fun j _ => (by decide : 5000 % U32 ≤ add32 (5000 % U32) 10000),
      fun j hj => absurd hj (Nat.not_lt_zero j), by decide⟩ (by decide) (by decide)
  exact ⟨s', o', h, (h2 (by decide)).2⟩

/-- C13: for non-null destinations, timeout `T` seconds (`_mTimeout = T * 1000`) and
send time `t0 = tSend`, when the transport never reports a datagram and some
clock reading of the wait loop exceeds `t0 + T * 1000`: there is a first such
reading, in wait iteration `k0`; with enough fuel to get there the loop ends and
`ForceUpdate` returns `TIMEOUT`; the destinations, `_mUpdateTime` and
`_mLastUpdate` are unchanged, the packet buffer still holds the request, and the
transport saw only the request and `k0` calls of `parsePacket` (no `read`). -/
theorem C13_timeout (env : Env) (self : NTP) (sec ms : Nat) (leap : Leap) (T : Nat)
    (hT : self._mTimeout = T * 1000) (hsilent : ∀ k, env.parse k = 0)
    (hex : ∃ k, env.tSend % U32 + T * 1000 < env.tLoop k % U32) :
    ∃ k0, env.tSend % U32 + T * 1000 < env.tLoop k0 % U32 ∧
      (∀ j, j < k0 → env.tLoop j % U32 ≤ env.tSend % U32 + T * 1000) ∧
      ∀ fuel, k0 < fuel →
        ∃ s', ForceUpdate fuel env self
            { Seconds := some sec, Millis := some ms, Leap := some leap }
            = some (Error.TIMEOUT, s',
                { Seconds := some sec, Millis := some ms, Leap := some leap }) ∧
          s'._mUpdateTime = self._mUpdateTime ∧ s'._mLastUpdate = self._mLastUpdate ∧
          s'._mPacket = ForceUpdate.request ∧
          s'._mClient.log = self._mClient.log ++
            [UdpOp.begin self._mPort, UdpOp.beginPacket self._mServer self._mPort,
              UdpOp.write (0x1B :: List.replicate 47 0), UdpOp.endPacket]
            ++ List.replicate k0 UdpOp.parsePacket := by
  have hspec := Nat.find_spec hex
  have hmin : ∀ j, j < Nat.find hex → env.tLoop j % U32 ≤ env.tSend % U32 + T * 1000 :=
    fun j hj => Nat.le_of_not_lt (Nat.find_min hex hj)
  have hlt : env.tLoop (Nat.find hex) % U32 < U32 := Nat.mod_lt _ (by decide)
  have hadd : add32 (env.tSend % U32) self._mTimeout = env.tSend % U32 + T * 1000 := by
    rw [hT]
    exact add32_of_lt (Nat.lt_trans hspec hlt)
  refine ⟨Nat.find hex, hspec, hmin, fun fuel hfuel => ?_⟩
  have hrun := @ForceUpdate_of_expires fuel (Nat.find hex) env self
    { Seconds := some sec, Millis := some ms, Leap := some leap } (by simp)
    (fun j hj => by rw [hadd]; exact hmin j hj) (fun j _ => hsilent j)
    (by rw [hadd]; exact hspec) hfuel
  refine ⟨_, hrun, rfl, rfl, rfl, ?_⟩
  show ((ForceUpdate.send self).polled (Nat.find hex)).log = _
  rw [(UDP.polled_log _ _).1, ForceUpdate.send_log]

/-- C13, on the example client (timeout 10 s) with a silent transport and clock
readings 5000, 10000, 15000 in the wait loop: `TIMEOUT` with three units of
fuel. -/
theorem C13_timeout_witness :
    ∃ k0, (Example.silent 0).tSend % U32 + 10 * 1000 < (Example.silent 0).tLoop k0 % U32 ∧
      (∀ j, j < k0 → (Example.silent 0).tLoop j % U32
        ≤ (Example.silent 0).tSend % U32 + 10 * 1000) ∧
      ∀ fuel, k0 < fuel →
        ∃ s', ForceUpdate fuel (Example.silent 0) Example.client
            { Seconds := some 11, Millis := some 22, Leap := some Leap.ALERT }
            = some (Error.TIMEOUT, s',
                { Seconds := some 11, Millis := some 22, Leap := some Leap.ALERT }) ∧
          s'._mUpdateTime = Example.client._mUpdateTime ∧
          s'._mLastUpdate = Example.client._mLastUpdate ∧
          s'._mPacket = ForceUpdate.request ∧
          s'._mClient.log = Example.client._mClient.log ++
            [UdpOp.begin Example.client._mPort,
              UdpOp.beginPacket Example.client._mServer Example.client._mPort,
              UdpOp.write (0x1B :: List.replicate 47 0), UdpOp.endPacket]
            ++ List.replicate k0 UdpOp.parsePacket :=
  C13_timeout (Example.silent 0) Example.client 11 22 Leap.ALERT 10 (by decide)
    (fun _ => rfl) ⟨2, by decide⟩

/-- C14: for every 48-byte reply, in the packet memory after the swap loop each of
the eleven 32 bit fields (words 1 to 11, byte offsets 4 to 44) holds the
network-byte-order value of its four wire bytes, and the first four bytes are
the wire bytes as received; stratum is wire byte 1 and poll is wire byte 2. -/
theorem C14_reply_decoding (env : Env) (hlen : env.datagram.length = 48) :
    (∀ i, 1 ≤ i → i ≤ 11 →
      NTP_Packet.getU32 (ForceUpdate.receive env) i = wireU32 env.datagram i) ∧
    (∀ j, j < 4 → NTP_Packet.byte (ForceUpdate.receive env) j = env.datagram.getD j 0 % 256) ∧
    NTP_Packet.Strat (ForceUpdate.receive env) = env.datagram.getD 1 0 % 256 ∧
    NTP_Packet.Poll (ForceUpdate.receive env) = env.datagram.getD 2 0 % 256 := by
  refine ⟨fun i h1 h2 => ForceUpdate.getU32_receive env h1 h2, fun j hj => ?_,
    ForceUpdate.Strat_receive env, ForceUpdate.Poll_receive env⟩
  rw [ForceUpdate.byte_receive env hj, List.getD_eq_getElem _ _ (by omega),
    List.getD_eq_getElem _ _ (by omega)]

/-- C14, on a reply with stratum 2, poll 6, transmit seconds `0xE93C4F80` and
fraction `0x80000000`. -/
theorem C14_reply_decoding_witness :
    (Example.reply 0x1C 2 6 0xE93C4F80 0x80000000).length = 48 ∧
    NTP_Packet.getU32 (ForceUpdate.receive
      (Example.answered (Example.reply 0x1C 2 6 0xE93C4F80 0x80000000) 0 0 0)) 10 = 0xE93C4F80 ∧
    NTP_Packet.byte (ForceUpdate.receive
      (Example.answered (Example.reply 0x1C 2 6 0xE93C4F80 0x80000000) 0 0 0)) 0 = 0x1C ∧
    NTP_Packet.Strat (ForceUpdate.receive
      (Example.answered (Example.reply 0x1C 2 6 0xE93C4F80 0x80000000) 0 0 0)) = 2 ∧
    NTP_Packet.Poll (ForceUpdate.receive
      (Example.answered (Example.reply 0x1C 2 6 0xE93C4F80 0x80000000) 0 0 0)) = 6 :=
  ⟨by decide,
    ((C14_reply_decoding
      (Example.answered (Example.reply 0x1C 2 6 0xE93C4F80 0x80000000) 0 0 0)
      (by decide)).1 10 (by decide) (by decide)).trans (by decide),
    ((C14_reply_decoding
      (Example.answered (Example.reply 0x1C 2 6 0xE93C4F80 0x80000000) 0 0 0)
      (by decide)).2.1 0 (by decide)).trans (by decide),
    (C14_reply_decoding
      (Example.answered (Example.reply 0x1C 2 6 0xE93C4F80 0x80000000) 0 0 0)
      (by decide)).2.2.1.trans (by decide),
    (C14_reply_decoding
      (Example.answered (Example.reply 0x1C 2 6 0xE93C4F80 0x80000000) 0 0 0)
      (by decide)).2.2.2.trans (by decide)⟩

/-- C15: `__SWAP32__` is an involution on 32 bit values, and the swap loop applied
twice to a 48-byte packet memory gives the original bytes back. -/
theorem C15_swap_involution :
    (∀ x, x < U32 → __SWAP32__ (__SWAP32__ x) = x) ∧
    (∀ p : List Nat, p.length = 48 → (∀ b ∈ p, b < 256) →
      NTP_Packet.swapEndianess (NTP_Packet.swapEndianess p) = p) :=
  ⟨fun _ hx => SWAP32_involution hx,
    fun _ hlen hb => NTP_Packet.swapEndianess_swapEndianess hlen hb⟩

/-- C15, at the word `0x11223344` and at a reply packet. -/
theorem C15_swap_involution_witness :
    __SWAP32__ 0x11223344 = 0x44332211 ∧ __SWAP32__ (__SWAP32__ 0x11223344) = 0x11223344 ∧
    NTP_Packet.swapEndianess (NTP_Packet.swapEndianess
      (Example.reply 0x1C 2 6 0xE93C4F80 0x80000000))
      = Example.reply 0x1C 2 6 0xE93C4F80 0x80000000 :=
  ⟨by decide, C15_swap_involution.1 0x11223344 (by decide),
    C15_swap_involution.2 (Example.reply 0x1C 2 6 0xE93C4F80 0x80000000) (by decide)
      (by decide)⟩

/-- C16: for every client (whatever its packet buffer held) and every run of
`ForceUpdate` with non-null destinations, the transport receives, after `begin`
and `beginPacket`, exactly one `write`, of the 48 bytes `0x1B, 0, ..., 0`: leap
indicator 0, version 3, mode 3 and every other field zero; all later calls are
`parsePacket`, `read` or `stop`. -/
theorem C16_request_packet (fuel : Nat) (env : Env) (self : NTP) (out : Outs)
    (r : Error × NTP × Outs)
    (hout : ¬ (out.Seconds = none ∨ out.Millis = none ∨ out.Leap = none))
    (h : ForceUpdate fuel env self out = some r) :
    ForceUpdate.request = 0x1B :: List.replicate 47 0 ∧ ForceUpdate.request.length = 48 ∧
    NTP_Packet.LI ForceUpdate.request = 0 ∧ NTP_Packet.VN ForceUpdate.request = 3 ∧
    NTP_Packet.Mode ForceUpdate.request = 3 ∧
    ∃ rest, r.2.1._mClient.log = self._mClient.log ++
        [UdpOp.begin self._mPort, UdpOp.beginPacket self._mServer self._mPort,
          UdpOp.write (0x1B :: List.replicate 47 0), UdpOp.endPacket] ++ rest ∧
      ∀ op ∈ rest, op = UdpOp.parsePacket ∨ op = UdpOp.read 48 ∨ op = UdpOp.stop := by
  refine ⟨ForceUpdate.request_eq, by decide, by decide, by decide, by decide, ?_⟩
  obtain ⟨n, hr | hr⟩ := ForceUpdate_cases_polled hout h
  · refine ⟨List.replicate n UdpOp.parsePacket, ?_, ?_⟩
    · rw [hr]
      show ((ForceUpdate.send self).polled n).log = _
      rw [(UDP.polled_log _ _).1, ForceUpdate.send_log]
    · intro op hop
      exact Or.inl (List.eq_of_mem_replicate hop)
  · refine ⟨List.replicate n UdpOp.parsePacket ++ [UdpOp.read 48, UdpOp.stop], ?_, ?_⟩
    · rw [hr, ForceUpdate.complete_client]
      show (((ForceUpdate.send self).polled n).log ++ [UdpOp.read sizeofPacket]) ++ [UdpOp.stop]
        = _
      rw [(UDP.polled_log _ _).1, ForceUpdate.send_log]
      simp [sizeofPacket]
    · intro op hop
      rcases List.mem_append.mp hop with hp | hp
      · exact Or.inl (List.eq_of_mem_replicate hp)
      · simp at hp
        rcases hp with hp | hp
        · exact Or.inr (Or.inl hp)
        · exact Or.inr (Or.inr hp)

/-- C16, on a client whose packet buffer still holds a previous reply: the request
written is again `0x1B, 0, ..., 0`. -/
theorem C16_request_packet_witness :
    Example.afterPoll6.2.1._mPacket ≠ ForceUpdate.request ∧
    ∃ rest, ((ForceUpdate 1
        (Example.answered (Example.reply 0x1C 2 4 3913056100 0) 105000 105040 105041)
        Example.afterPoll6.2.1 Example.outs).getD
          (Error.WAIT, Example.client, Example.outs)).2.1._mClient.log
        = Example.afterPoll6.2.1._mClient.log ++
          [UdpOp.begin 123, UdpOp.beginPacket "pool.ntp.org" 123,
            UdpOp.write (0x1B :: List.replicate 47 0), UdpOp.endPacket] ++ rest ∧
      ∀ op ∈ rest, op = UdpOp.parsePacket ∨ op = UdpOp.read 48 ∨ op = UdpOp.stop :=
  ⟨by decide,
    (C16_request_packet 1
      (Example.answered (Example.reply 0x1C 2 4 3913056100 0) 105000 105040 105041)
      Example.afterPoll6.2.1 Example.outs _ (by decide) rfl).2.2.2.2.2⟩

/-- C17 (the claim as stated fails): after a successful update with poll byte `30`
the interval is `2^30` s and `_mUpdateTime * 1000` wraps to `0` in 32 bit; an
`Update` one second after the update (clock `8041`, update completed at `7041`)
is within the interval and yet runs `ForceUpdate` instead of returning `WAIT`. -/
theorem C17_no_wait_when_interval_wraps :
    ∃ s' o', ForceUpdate 1
        (Example.answered (Example.reply 0x1C 2 30 3913056000 0) 7000 7040 7041)
        Example.client Example.outs = some (Error.NO_ERROR, s', o') ∧
      s'._mLastUpdate = 7041 ∧ s'._mUpdateTime = 1073741824 ∧
      sub32 8041 s'._mLastUpdate < s'._mUpdateTime * 1000 ∧
      (Update 1 8041 (Example.answered (Example.reply 0x1C 2 6 3913056001 0) 8041 8081 8082)
        s' o').map Prod.fst = some Error.NO_ERROR :=
  ⟨_, _, rfl, by decide, by decide, by decide, by decide⟩

/-- C17 (amended): a successful `ForceUpdate` sets `_mLastUpdate` to the clock reading
taken at its end; and when the interval in milliseconds `_mUpdateTime * 1000`
fits 32 bit afterwards, every sequence of calls of `Update` at clock readings
`t'` with `t' - _mLastUpdate < _mUpdateTime * 1000` returns `WAIT` each time and
leaves the client (its transport and call log included) and the destinations
as they were. -/
theorem C17_wait_after_success (fuel fuel' : Nat) (env : Env) (self s' : NTP) (out o' : Outs)
    (calls : List (Nat × Env))
    (h : ForceUpdate fuel env self out = some (Error.NO_ERROR, s', o'))
    (hfit : s'._mUpdateTime * 1000 < U32)
    (hcalls : ∀ c ∈ calls, sub32 c.1 (env.tEnd % U32) < s'._mUpdateTime * 1000) :
    s'._mLastUpdate = env.tEnd % U32 ∧
    Updates fuel' calls s' o' = some (List.replicate calls.length Error.WAIT, s', o') := by
  have hlast := ForceUpdate_NO_ERROR_lastUpdate h
  refine ⟨hlast, Updates_all_WAIT fuel' s' o' hfit calls (fun c hc => ?_)⟩
  rw [hlast]
  exact Nat.le_of_lt (hcalls c hc)

/-- C17 (amended), on the example client: after a successful update completing at
clock `5041` with interval 64 s, two calls of `Update` at `6041` and `7041`
both return `WAIT`. -/
theorem C17_wait_after_success_witness :
    Example.afterPoll6.2.1._mLastUpdate = 5041 % U32 ∧
    Updates 1
      [(6041, Example.answered (Example.reply 0x1C 2 6 3913056001 0) 6041 6081 6082),
       (7041, Example.answered (Example.reply 0x1C 2 6 3913056002 0) 7041 7081 7082)]
      Example.afterPoll6.2.1 Example.afterPoll6.2.2
      = some (List.replicate 2 Error.WAIT, Example.afterPoll6.2.1, Example.afterPoll6.2.2) :=
  C17_wait_after_success 1 1
    (Example.answered (Example.reply 0x1C 2 6 3913056000 0) 5000 5040 5041)
    Example.client Example.afterPoll6.2.1 Example.outs Example.afterPoll6.2.2
    [(6041, Example.answered (Example.reply 0x1C 2 6 3913056001 0) 6041 6081 6082),
     (7041, Example.answered (Example.reply 0x1C 2 6 3913056002 0) 7041 7081 7082)]
    rfl (by decide)
    (fun c hc => by
      rcases List.mem_cons.mp hc with h | h
      · rw [h]; decide
      · rcases List.mem_cons.mp h with h | h
        · rw [h]; decide
        · exact absurd h (List.not_mem_nil _))

/-- C18: two runs of `ForceUpdate` from the same client, with the same destinations,
clock readings and arrival of the reply, whose replies agree on stratum (byte
1), poll (byte 2) and the transmit timestamp (bytes 40..47) and differ
arbitrarily elsewhere, give the same error code, `*Seconds`, `*Millis`,
`_mUpdateTime` and `_mLastUpdate`. -/
theorem C18_unused_fields (fuel : Nat) (env : Env) (self : NTP) (out : Outs) (dg : List Nat)
    (h1 : env.datagram.getD 1 0 % 256 = dg.getD 1 0 % 256)
    (h2 : env.datagram.getD 2 0 % 256 = dg.getD 2 0 % 256)
    (hT : ∀ j, 40 ≤ j → j < 48 → env.datagram.getD j 0 % 256 = dg.getD j 0 % 256) :
    (ForceUpdate fuel env self out).map
        (fun r => (r.1, r.2.2.Seconds, r.2.2.Millis, r.2.1._mUpdateTime, r.2.1._mLastUpdate))
      = (ForceUpdate fuel { env with datagram := dg } self out).map
        (fun r => (r.1, r.2.2.Seconds, r.2.2.Millis, r.2.1._mUpdateTime, r.2.1._mLastUpdate)) := by
  have hS : wireU32 env.datagram 10 = wireU32 dg 10 := by
    unfold wireU32
    rw [hT 40 (by decide) (by decide), hT 41 (by decide) (by decide),
      hT 42 (by decide) (by decide), hT 43 (by decide) (by decide)]
  have hF : wireU32 env.datagram 11 = wireU32 dg 11 := by
    unfold wireU32
    rw [hT 44 (by decide) (by decide), hT 45 (by decide) (by decide),
      hT 46 (by decide) (by decide), hT 47 (by decide) (by decide)]
  have hsum : ∀ st : NTP,
      (fun r : Error × NTP × Outs =>
          (r.1, r.2.2.Seconds, r.2.2.Millis, r.2.1._mUpdateTime, r.2.1._mLastUpdate))
        (ForceUpdate.complete env st out)
      = (fun r : Error × NTP × Outs =>
          (r.1, r.2.2.Seconds, r.2.2.Millis, r.2.1._mUpdateTime, r.2.1._mLastUpdate))
        (ForceUpdate.complete { env with datagram := dg } st out) := by
    intro st
    simp only
    rw [ForceUpdate.complete_summary, ForceUpdate.complete_summary]
    simp only [h1, h2, hS, hF]
  unfold ForceUpdate
  split
  · rfl
  · simp only [wait_datagram]
    split
    · rfl
    · rfl
    · simp only [Option.map_some']
      exact congrArg some (hsum _)

/-- C18, on two replies that differ in the first byte, precision, root delay and
reference timestamp. -/
theorem C18_unused_fields_witness :
    Example.reply 0x1C 2 6 3913056000 0x80000000
      ≠ ((((Example.reply 0x1C 2 6 3913056000 0x80000000).set 0 0xE4).set 3 0xEC).set 5 7).set
          16 0xE9 ∧
    (ForceUpdate 1 (Example.answered (Example.reply 0x1C 2 6 3913056000 0x80000000)
        5000 5040 5041) Example.client Example.outs).map
        (fun r => (r.1, r.2.2.Seconds, r.2.2.Millis, r.2.1._mUpdateTime, r.2.1._mLastUpdate))
      = (ForceUpdate 1
          { Example.answered (Example.reply 0x1C 2 6 3913056000 0x80000000) 5000 5040 5041 with
            datagram := ((((Example.reply 0x1C 2 6 3913056000 0x80000000).set 0 0xE4).set
              3 0xEC).set 5 7).set 16 0xE9 }
          Example.client Example.outs).map
        (fun r => (r.1, r.2.2.Seconds, r.2.2.Millis, r.2.1._mUpdateTime, r.2.1._mLastUpdate)) :=
  ⟨by decide,
    C18_unused_fields 1
      (Example.answered (Example.reply 0x1C 2 6 3913056000 0x80000000) 5000 5040 5041)
      Example.client Example.outs
      (((((Example.reply 0x1C 2 6 3913056000 0x80000000).set 0 0xE4).set 3 0xEC).set 5 7).set
        16 0xE9)
      (by decide) (by decide)
      (fun j h1 h2 => by interval_cases j <;> decide)⟩

/-- C19: when at least one of the three destinations is null, `ForceUpdate` returns
`INVALID_PARAMETER` and leaves the client (transport and its call log included,
`_mUpdateTime`, `_mLastUpdate`) and the destinations as they were; when all three
are non-null, no result of `ForceUpdate` is `INVALID_PARAMETER`. -/
theorem C19_null_destination (fuel : Nat) (env : Env) (self : NTP) (out : Outs) :
    (out.Seconds = none ∨ out.Millis = none ∨ out.Leap = none →
      ForceUpdate fuel env self out = some (Error.INVALID_PARAMETER, self, out)) ∧
    (¬ (out.Seconds = none ∨ out.Millis = none ∨ out.Leap = none) →
      ∀ r, ForceUpdate fuel env self out = some r → r.1 ≠ Error.INVALID_PARAMETER) := by
  refine ⟨ForceUpdate_null fuel env self out, fun hout r h => ?_⟩
  obtain ⟨n, hr | hr⟩ := ForceUpdate_cases_polled hout h
  · rw [hr]; simp
  · rw [hr, ForceUpdate.complete_error]; split <;> simp

/-- C19, on the example client with a null `Millis` destination. -/
theorem C19_null_destination_witness :
    ForceUpdate 1 (Example.answered (Example.reply 0x1C 2 6 3913056000 0) 5000 5040 5041)
      Example.client { Seconds := some 7, Millis := none, Leap := some Leap.NO_WARNING }
      = some (Error.INVALID_PARAMETER, Example.client,
          { Seconds := some 7, Millis := none, Leap := some Leap.NO_WARNING }) :=
  (C19_null_destination 1 _ Example.client
    { Seconds := some 7, Millis := none, Leap := some Leap.NO_WARNING }).1 (by decide)

/-- C20: for every successful `ForceUpdate` with wire transmit seconds
`s ≥ 2208988800`, raw milliseconds `m` and round trip `d = receiveTime - sendTime`
without 32 bit wrap-around (`receiveTime ≥ sendTime`, `m + d < 2^32`), the
returned pair satisfies `Seconds * 1000 + Millis = (s - 2208988800) * 1000 + m + d`,
whether or not the carry is taken and whatever the size of `m + d`. -/
theorem C20_time_conservation (fuel : Nat) (env : Env) (self s' : NTP) (out o' : Outs)
    (h : ForceUpdate fuel env self out = some (Error.NO_ERROR, s', o'))
    (hs : 2208988800 ≤ wireU32 env.datagram 10)
    (hclk : env.tSend % U32 ≤ env.tRec % U32)
    (hnw : rawMillis (wireU32 env.datagram 11) + (env.tRec % U32 - env.tSend % U32) < U32) :
    ∃ sec ms, o'.Seconds = some sec ∧ o'.Millis = some ms ∧
      sec * 1000 + ms = (wireU32 env.datagram 10 - 2208988800) * 1000
        + rawMillis (wireU32 env.datagram 11) + (env.tRec % U32 - env.tSend % U32) := by
  have ho := ForceUpdate_NO_ERROR_outs h
  have hlt := wireU32_lt env.datagram 10
  have hd : sub32 (env.tRec % U32) (env.tSend % U32) = env.tRec % U32 - env.tSend % U32 :=
    sub32_of_le hclk (Nat.mod_lt _ (by decide))
  have he : sub32 (wireU32 env.datagram 10) 2208988800 = wireU32 env.datagram 10 - 2208988800 :=
    sub32_of_le hs hlt
  rw [hd, add32_of_lt hnw, he] at ho
  have he1 : add32 (wireU32 env.datagram 10 - 2208988800) 1
      = wireU32 env.datagram 10 - 2208988800 + 1 :=
    add32_of_lt (by unfold U32 at *; omega)
  rw [he1] at ho
  by_cases hc : 1000 ≤ rawMillis (wireU32 env.datagram 11) + (env.tRec % U32 - env.tSend % U32)
  · rw [if_pos hc] at ho
    refine ⟨wireU32 env.datagram 10 - 2208988800 + 1,
      rawMillis (wireU32 env.datagram 11) + (env.tRec % U32 - env.tSend % U32) - 1000,
      by rw [ho], by rw [ho], ?_⟩
    omega
  · rw [if_neg hc] at ho
    refine ⟨wireU32 env.datagram 10 - 2208988800,
      rawMillis (wireU32 env.datagram 11) + (env.tRec % U32 - env.tSend % U32),
      by rw [ho], by rw [ho], ?_⟩
    omega

/-- C20, on a run with fraction `0` and a round trip of two seconds (`m + d = 2000`):
the carry is taken once, and `1704067201 * 1000 + 1000 = 1704067200 * 1000 + 2000`. -/
theorem C20_time_conservation_witness :
    ∃ s', ForceUpdate 1
        (Example.answered (Example.reply 0x1C 2 6 3913056000 0) 5000 7000 7001)
        Example.client Example.outs
        = some (Error.NO_ERROR, s',
            { Seconds := some 1704067201, Millis := some 1000, Leap := some Leap.NO_WARNING }) ∧
      ∃ sec ms, some 1704067201 = some sec ∧ some 1000 = some ms ∧
        sec * 1000 + ms = (3913056000 - 2208988800) * 1000 + 0 + (7000 - 5000) :=
  ⟨(ForceUpdate.complete
      (Example.answered (Example.reply 0x1C 2 6 3913056000 0) 5000 7000 7001)
      { Example.client with _mPacket := ForceUpdate.request
                            _mClient := (ForceUpdate.send Example.client).parsePacket
                            _mSendTime := 5000 } Example.outs).2.1,
    rfl,
    C20_time_conservation 1
      (Example.answered (Example.reply 0x1C 2 6 3913056000 0) 5000 7000 7001)
      Example.client
      (ForceUpdate.complete
        (Example.answered (Example.reply 0x1C 2 6 3913056000 0) 5000 7000 7001)
        { Example.client with _mPacket := ForceUpdate.request
                              _mClient := (ForceUpdate.send Example.client).parsePacket
                              _mSendTime := 5000 } Example.outs).2.1
      Example.outs
      { Seconds := some 1704067201, Millis := some 1000, Leap := some Leap.NO_WARNING }
      rfl (by decide) (by decide) (by decide)⟩

/-- C21: for every 8 bit `Base` and `Exp` the `for` loop of `_power` ends (with any fuel
above `Exp`) after exactly `Exp` iterations, and `_power` returns
`Base ^ Exp mod 2^32`; in particular `_power(2, e) = 2^e` for `0 ≤ e ≤ 31` and
`_power(2, e) = 0` for `32 ≤ e ≤ 255`. -/
theorem C21_power_modular :
    (∀ Base Exp, Base < 256 → Exp < 256 →
      (∀ fuel, Exp < fuel →
        _power.forLoop Base Exp fuel 0 0x01 0 = some (_power Base Exp, Exp)) ∧
      _power Base Exp = Base ^ Exp % 2 ^ 32) ∧
    (∀ e, e ≤ 31 → _power 2 e = 2 ^ e) ∧
    (∀ e, 32 ≤ e → e ≤ 255 → _power 2 e = 0) := by
  refine ⟨fun Base Exp hB hE => ⟨fun fuel hf => ?_, ?_⟩, fun e he => power_two_of_le he,
    fun e h1 h2 => power_two_of_ge h1 (by omega)⟩
  · rw [power_forLoop_eq Base Exp hE fuel 0 1 0 (Nat.zero_le _) (by omega)]
    simp only [Nat.sub_zero, Nat.zero_add, _power, Nat.mod_eq_of_lt hB, Nat.mod_eq_of_lt hE]
  · rw [power_eq, Nat.mod_eq_of_lt hB, Nat.mod_eq_of_lt hE]
    rfl

set_option maxRecDepth 8192 in
/-- C21, at `_power(3, 21)`, whose value `3^21 = 10460353203` exceeds 32 bit, at
`_power(2, 31)` and at `_power(2, 255)`. -/
theorem C21_power_modular_witness :
    _power.forLoop 3 21 22 0 0x01 0 = some (1870418611, 21) ∧
    _power 3 21 = 3 ^ 21 % 2 ^ 32 ∧ _power 3 21 = 1870418611 ∧
    _power 2 31 = 2147483648 ∧ _power 2 255 = 0 :=
  ⟨((C21_power_modular.1 3 21 (by decide) (by decide)).1 22 (by decide)).trans (by decide),
    (C21_power_modular.1 3 21 (by decide) (by decide)).2,
    ((C21_power_modular.1 3 21 (by decide) (by decide)).2).trans (by decide),
    (C21_power_modular.2.1 31 (by decide)).trans (by decide),
    C21_power_modular.2.2 255 (by decide) (by decide)⟩

end NTP
